import Mathlib

/-!
Shallow embedding of the Appergy eat-out-fixes core: the ingredient-label
normalizer, the deterministic policy engine, the inference-escalation
service and the scan helper functions, together with theorems settling the
spec claims about them.

Strings are embedded as lists of characters; JavaScript machine semantics
(truthiness, substring clamping, regex first-match scanning) are embedded
explicitly where the source relies on them.
-/

namespace Appergy

/-- Strings of the embedded program: JavaScript strings as character lists. -/
abbrev Str := List Char

/-- Literal helper: a Lean string literal as an embedded string. -/
def str (s : String) : Str := s.data

/-- ASCII lowercasing, as JavaScript toLowerCase acts on the program text. -/
def lowerChar (c : Char) : Char :=
  if 'A' ≤ c ∧ c ≤ 'Z' then Char.ofNat (c.toNat + 32) else c

/-- Lowercase a whole embedded string. -/
def lowerStr (s : Str) : Str := s.map lowerChar

/-- The JavaScript whitespace class used by \s, String.prototype.trim and friends. -/
def isJsWs (c : Char) : Bool :=
  decide (c.toNat ∈ [32, 9, 10, 13, 11, 12, 160, 0x1680,
      0x2028, 0x2029, 0x202f, 0x205f, 0x3000, 0xfeff] ∨
    (0x2000 ≤ c.toNat ∧ c.toNat ≤ 0x200a))

/-- JavaScript String.prototype.trim on an embedded string. -/
def jsTrim (s : Str) : Str :=
  ((s.dropWhile isJsWs).reverse.dropWhile isJsWs).reverse

/-- b occurs contiguously in a starting at position i. -/
def occursAt (a b : Str) (i : Nat) : Bool := b.isPrefixOf (a.drop i)

/-- JavaScript a.includes(b): b occurs contiguously somewhere inside a. -/
def includes (a b : Str) : Bool :=
  (List.range (a.length + 1)).any (fun i => occursAt a b i)

/-- Word character class [A-Za-z0-9_] used by regex word boundaries. -/
def isWordChar (c : Char) : Bool :=
  decide (('a' ≤ c ∧ c ≤ 'z') ∨ ('A' ≤ c ∧ c ≤ 'Z') ∨ ('0' ≤ c ∧ c ≤ '9') ∨ c = '_')

/-- A character-offset span into a text. -/
structure Span where
  start : Nat
  stop : Nat
deriving DecidableEq, Repr

/-! ## scanHelpers.ts -/

/-- One OCR menu line, from scanHelpers.ts. -/
structure MenuLine where
  rawText : Str
  normalized : List Str
  confidence : ℚ
deriving DecidableEq, Repr

/-- One detected allergen, from scanHelpers.ts. -/
structure AllergenMatch where
  allergenId : Str
  severity : ℚ
  /-- the matches field of the source (renamed: matches is a Lean keyword) -/
  matches' : List Str
deriving DecidableEq, Repr

/-- The externally consumed analysis-result shape of scanHelpers.ts. -/
structure AnalysisResult where
  menuItems : List MenuLine
  allergensDetected : List AllergenMatch
  dietaryFlags : List Str
  confidence : ℚ
deriving DecidableEq, Repr

/-- Keep characters that are lowercase alphanumerics or JS whitespace:
the replace of everything outside [a-z0-9\s] in normalizeTokens. -/
def keepAlnumWs (s : Str) : Str :=
  s.filter (fun c =>
    decide (('a' ≤ c ∧ c ≤ 'z') ∨ ('0' ≤ c ∧ c ≤ '9')) || isJsWs c)

/-- normalizeTokens from scanHelpers.ts: lowercase each token, strip everything
but [a-z0-9\s], trim, and drop tokens that became empty. -/
def normalizeTokens (tokens : List Str) : List Str :=
  (tokens.map (fun t => jsTrim (keepAlnumWs (lowerStr t)))).filter (fun t => t ≠ [])

/-- computeItemFingerprint from scanHelpers.ts: source name is confirmedName
if truthy after trimming, else guessedName likewise, else null; the chosen
name goes through normalizeTokens as a single token and the resulting token
list is joined with hyphen separators (a single-token list is returned
unchanged by join). -/
def computeItemFingerprint (confirmedName guessedName : Option Str) : Option Str :=
  let pick : Option Str → Option Str := fun n =>
    match n with
    | none => none
    | some s => if jsTrim s = [] then none else some (jsTrim s)
  let source : Option Str :=
    match pick confirmedName with
    | some s => some s
    | none => pick guessedName
  match source with
  | none => none
  | some s =>
      let normalized := List.intercalate ['-'] (normalizeTokens [s])
      if normalized = [] then none else some (str "fp:" ++ normalized)

/-- Session counter input of updateSessionAttemptCounters: fields may be
absent (undefined) and then default to 0 / false. -/
structure SessionIn where
  attemptCount : Option Nat
  manualReviewCount : Option Nat
  escalationShown : Option Bool
deriving DecidableEq, Repr

/-- Session counter output of updateSessionAttemptCounters. -/
structure SessionOut where
  attemptCount : Nat
  manualReviewCount : Nat
  escalationShown : Bool
  shouldShowEscalation : Bool
deriving DecidableEq, Repr

/-- updateSessionAttemptCounters from scanHelpers.ts. -/
def updateSessionAttemptCounters (session : SessionIn) (isMRR : Bool) : SessionOut :=
  let attemptCount := session.attemptCount.getD 0 + 1
  let manualReviewCount :=
    if isMRR then session.manualReviewCount.getD 0 + 1 else 0
  let escalationShown := session.escalationShown.getD false
  let shouldShowEscalation := !escalationShown && decide (3 ≤ manualReviewCount)
  { attemptCount := attemptCount
    manualReviewCount := manualReviewCount
    escalationShown := escalationShown || shouldShowEscalation
    shouldShowEscalation := shouldShowEscalation }

/-- Feed a session-counter output back in as the next attempt's stored state. -/
def sessionOutToIn (s : SessionOut) : SessionIn :=
  { attemptCount := some s.attemptCount
    manualReviewCount := some s.manualReviewCount
    escalationShown := some s.escalationShown }

/-- quickHeuristicScan line splitting: split on \r?\n. -/
def splitLines (s : Str) : List Str :=
  match s with
  | [] => [[]]
  | '\r' :: '\n' :: rest => [] :: splitLines rest
  | '\n' :: rest => [] :: splitLines rest
  | c :: rest =>
      match splitLines rest with
      | [] => [[c]]
      | seg :: segs => (c :: seg) :: segs

/-- Prepend a character onto the first segment of a segment list. -/
def consHead (c : Char) : List Str → List Str
  | [] => [[c]]
  | seg :: segs => (c :: seg) :: segs

mutual

/-- JavaScript split on runs of whitespace: segments between maximal
whitespace runs, keeping empty boundary segments exactly where JS does. -/
def splitWsRuns : Str → List Str
  | [] => [[]]
  | c :: rest =>
      if isJsWs c then [] :: splitWsSkip rest else consHead c (splitWsRuns rest)

/-- Consume the remainder of a whitespace run, then continue splitting. -/
def splitWsSkip : Str → List Str
  | [] => [[]]
  | c :: rest =>
      if isJsWs c then splitWsSkip rest else consHead c (splitWsRuns rest)

end

/-- The per-allergen body of the quick heuristic scan loop. -/
def quickScanStep (lower : Str) (acc : List AllergenMatch) (a : Str) : List AllergenMatch :=
  if includes lower (lowerStr a) then
    acc ++ [{ allergenId := a, severity := 9/10, matches' := [a] }]
  else acc

/-- quickHeuristicScan from scanHelpers.ts: trimmed non-empty lines become
menu items; each user allergen whose lowercase form occurs in the lowercase
text is reported with severity 0.9; overall confidence is 0.85 when any
allergen was detected and 0.5 otherwise. -/
def quickHeuristicScan (text : Str) (userAllergens : List Str) : AnalysisResult :=
  let lines := ((splitLines text).map jsTrim).filter (fun l => l ≠ [])
  let menuItems : List MenuLine := lines.map (fun l =>
    { rawText := l
      normalized := normalizeTokens (splitWsRuns l)
      confidence := 3/5 })
  let lower := lowerStr text
  let allergensDetected : List AllergenMatch :=
    userAllergens.foldl (quickScanStep lower) []
  let confidence : ℚ := if allergensDetected ≠ [] then 17/20 else 1/2
  { menuItems := menuItems
    allergensDetected := allergensDetected
    dietaryFlags := []
    confidence := confidence }

/-! ## ingredientNormalizer.ts -/

/-- Digit character class. -/
def isDigit (c : Char) : Bool := decide ('0' ≤ c ∧ c ≤ '9')

/-- The per-character glyph normalization of normalizeText: unicode space
variants to ASCII space, curly quotes and backquote to apostrophe, curly
double quotes to straight quote, en/em dashes to hyphen. -/
def normalizeGlyph (c : Char) : Char :=
  let n := c.toNat
  if n = 0xa0 ∨ (0x2000 ≤ n ∧ n ≤ 0x200b) ∨ n = 0x202f ∨ n = 0x205f ∨ n = 0x3000 then ' '
  else if n = 0x2018 ∨ n = 0x2019 ∨ n = 96 then Char.ofNat 39
  else if n = 0x201c ∨ n = 0x201d then Char.ofNat 34
  else if n = 0x2013 ∨ n = 0x2014 then '-'
  else c

mutual

/-- Collapse every whitespace run to a single ASCII space. -/
def collapseWs : Str → Str
  | [] => []
  | c :: rest => if isJsWs c then ' ' :: collapseSkip rest else c :: collapseWs rest

/-- Consume the remainder of a whitespace run during collapsing. -/
def collapseSkip : Str → Str
  | [] => []
  | c :: rest => if isJsWs c then collapseSkip rest else c :: collapseWs rest

end

/-- normalizeText from ingredientNormalizer.ts. -/
def normalizeText (text : Str) : Str :=
  jsTrim (collapseWs (text.map normalizeGlyph))

/-- Match a literal at the head of the text, returning the remainder. -/
def dropLit? : Str → Str → Option Str
  | [], l => some l
  | _ :: _, [] => none
  | a :: as, c :: cs => if a = c then dropLit? as cs else none

/-- Case-insensitively match a lowercase literal at the head of the text. -/
def ciDropLit? : Str → Str → Option Str
  | [], l => some l
  | _ :: _, [] => none
  | a :: as, c :: cs => if a = lowerChar c then ciDropLit? as cs else none

/-- Consume a maximal run of regex whitespace. -/
def dropWs (l : Str) : Str := l.dropWhile isJsWs

/-- Consume at most one character satisfying the class. -/
def dropOptChar (p : Char → Bool) (l : Str) : Str :=
  match l with
  | [] => []
  | c :: r => if p c then r else l

/-- A section-heading matcher: given the character preceding the current
position (none at the start of the text) and the text from the current
position on, return the remainder after a match here, if any. -/
abbrev Matcher := Option Char → Str → Option Str

/-- Word-boundary test between a preceding character and a word character. -/
def boundaryBefore (prev : Option Char) : Bool :=
  match prev with
  | none => true
  | some c => !isWordChar c

/-- Pattern 1 for may-contain sections. -/
def matchMayContain1 : Matcher := fun _ l =>
  (dropLit? (str "may contain") l).map (fun r =>
    dropWs (dropOptChar (fun c => c = ':' ∨ c = '.') (dropWs (dropOptChar (fun c => c = 's') r))))

/-- The facility-verb alternation of pattern 2 for may-contain sections. -/
def matchFacilityVerb (l : Str) : Option Str :=
  match dropLit? (str "processes") l with
  | some r => some r
  | none =>
      match dropLit? (str "handles") l with
      | some r => some r
      | none => dropLit? (str "uses") l

/-- Pattern 2 for may-contain sections. -/
def matchMayContain2 : Matcher := fun _ l =>
  (dropLit? (str "produced in a facility that ") l).bind (fun r =>
    (match (dropLit? (str "also ") r).bind matchFacilityVerb with
     | some r2 => some r2
     | none => matchFacilityVerb r).map (fun r2 =>
      dropWs (dropOptChar (fun c => c = ':' ∨ c = '.') (dropWs r2))))

/-- Pattern 1 for contains sections: punctuation, then the keyword. -/
def matchContains1 : Matcher := fun _ l =>
  match l with
  | [] => none
  | c :: r =>
      if c = '.' ∨ c = ';' then
        (dropLit? (str "contains") (dropWs r)).bind (fun r2 =>
          match dropWs r2 with
          | ':' :: r3 => some (dropWs r3)
          | _ => none)
      else none

/-- Pattern 2 for contains sections: word-bounded keyword. -/
def matchContains2 : Matcher := fun prev l =>
  if boundaryBefore prev then
    (dropLit? (str "contains") l).bind (fun r =>
      match dropWs r with
      | ':' :: r2 => some (dropWs r2)
      | _ => none)
  else none

/-- Pattern 3 for contains sections: word-bounded allergens keyword. -/
def matchContains3 : Matcher := fun prev l =>
  if boundaryBefore prev then
    (dropLit? (str "allergen") l).bind (fun r =>
      match dropWs (dropOptChar (fun c => c = 's') r) with
      | ':' :: r2 => some (dropWs r2)
      | _ => none)
  else none

/-- The single ingredients-section pattern. -/
def matchIngredientsKw : Matcher := fun _ l =>
  (dropLit? (str "ingredients") l).bind (fun r =>
    match dropWs r with
    | ':' :: r2 => some (dropWs r2)
    | _ => none)

/-- Scan left to right for the first position where the matcher fires,
returning the match index and matched length. -/
def scanFirst (m : Matcher) : Option Char → Nat → Str → Option (Nat × Nat)
  | prev, i, [] =>
      match m prev [] with
      | some _ => some (i, 0)
      | none => none
  | prev, i, c :: rest =>
      match m prev (c :: rest) with
      | some r => some (i, (c :: rest).length - r.length)
      | none => scanFirst m (some c) (i + 1) rest

/-- First match of the matcher at an index at or after the given start. -/
def findFrom (m : Matcher) (text : Str) (start : Nat) : Option (Nat × Nat) :=
  let prev : Option Char := if start = 0 then none else (text.drop (start - 1)).head?
  scanFirst m prev start (text.drop start)

/-- Keywords that end a section in findNextSectionStart. -/
def sectionKeywords : List Str :=
  [str "ingredients", str "contains", str "may contain", str "allergen",
   str "nutrition facts", str "serving size", str "calories",
   str "distributed by", str "manufactured by"]

/-- Try each section keyword followed by optional whitespace and a colon. -/
def tryKw : List Str → Str → Option Str
  | [], _ => none
  | kw :: kws, l =>
      match (dropLit? kw l).bind (fun r =>
        match dropWs r with
        | ':' :: r2 => some r2
        | _ => none) with
      | some r => some r
      | none => tryKw kws l

/-- The next-section pattern: optional period/semicolon, optional
whitespace, then a word-bounded section keyword and a colon. -/
def matchNextSection : Matcher := fun prev l =>
  let alta : Option Str :=
    match l with
    | [] => none
    | c :: r => if c = '.' ∨ c = ';' then tryKw sectionKeywords (dropWs r) else none
  match alta with
  | some r => some r
  | none =>
      let r := dropWs l
      let bOk := if r.length = l.length then boundaryBefore prev else true
      if bOk then tryKw sectionKeywords r else none

/-- findNextSectionStart from ingredientNormalizer.ts: the regex scan
begins one character past the given offset. -/
def findNextSectionStart (lowerText : Str) (after : Nat) : Option Nat :=
  (findFrom matchNextSection lowerText (after + 1)).map (fun x => x.1)

/-- A JavaScript ||-chain over numbers: the first present non-zero value,
else the default. -/
def firstTruthyNat : List (Option Nat) → Nat → Nat
  | [], d => d
  | some n :: rest, d => if n = 0 then firstTruthyNat rest d else n
  | none :: rest, d => firstTruthyNat rest d

/-- JavaScript String.prototype.substring: clamps both indices to the
string length and swaps them when given in descending order. -/
def jsSubstring (l : Str) (a b : Nat) : Str :=
  let a' := min a l.length
  let b' := min b l.length
  (l.drop (min a' b')).take (max a' b' - min a' b')

/-- Section boundaries recorded by detectSections. -/
structure SectionBoundaries where
  ingredients : Option Span
  contains : Option Span
  mayContain : Option Span
deriving DecidableEq, Repr

/-- The full result of detectSections. -/
structure SectionResult where
  ingredientsText : Option Str
  containsText : Option Str
  mayContainText : Option Str
  boundaries : SectionBoundaries
deriving DecidableEq, Repr

/-- The contains-pattern loop: first match of each pattern in turn,
rejecting a match when the five preceding characters contain the word
may, in which case the next pattern is tried. -/
def containsSearch (lower : Str) : List Matcher → Option (Nat × Nat)
  | [] => none
  | p :: rest =>
      match findFrom p lower 0 with
      | some (i, len) =>
          let before := jsSubstring lower (i - 5) i
          if includes before (str "may") then containsSearch lower rest
          else some (i, len)
      | none => containsSearch lower rest

/-- detectSections from ingredientNormalizer.ts. -/
def detectSections (text : Str) : SectionResult :=
  let lower := lowerStr text
  let mayMatch : Option (Nat × Nat) :=
    match findFrom matchMayContain1 lower 0 with
    | some x => some x
    | none => findFrom matchMayContain2 lower 0
  let mayPart : Option Str × Option Span :=
    match mayMatch with
    | some (i, len) =>
        let s := i + len
        let e := firstTruthyNat [findNextSectionStart lower s] text.length
        (some (jsTrim (jsSubstring text s e)), some ⟨s, e⟩)
    | none => (none, none)
  let containsPart : Option Str × Option Span :=
    match containsSearch lower [matchContains1, matchContains2, matchContains3] with
    | some (i, len) =>
        let s := i + len
        let e := firstTruthyNat
          [(mayPart.2).map Span.start, findNextSectionStart lower s] text.length
        (some (jsTrim (jsSubstring text s e)), some ⟨s, e⟩)
    | none => (none, none)
  let ingredientsPart : Option Str × Option Span :=
    match findFrom matchIngredientsKw lower 0 with
    | some (i, len) =>
        let s := i + len
        let e := firstTruthyNat
          [(containsPart.2).map Span.start, (mayPart.2).map Span.start,
           findNextSectionStart lower s] text.length
        (some (jsTrim (jsSubstring text s e)), some ⟨s, e⟩)
    | none => (none, none)
  { ingredientsText := ingredientsPart.1
    containsText := containsPart.1
    mayContainText := mayPart.1
    boundaries :=
      { ingredients := ingredientsPart.2
        contains := containsPart.2
        mayContain := mayPart.2 } }

/-- Split on single comma or semicolon characters. -/
def splitCommaSemi : Str → List Str
  | [] => [[]]
  | c :: rest =>
      if c = ',' ∨ c = ';' then [] :: splitCommaSemi rest
      else consHead c (splitCommaSemi rest)

/-- Completion attempt of the parenthetical pattern: optional whitespace,
an opening parenthesis, a non-empty run of non-closing characters, and the
closing parenthesis; returns the inside and the remainder. -/
def tryFinishParen (l : Str) : Option (Str × Str) :=
  match l.dropWhile isJsWs with
  | '(' :: r =>
      let inside := r.takeWhile (fun c => c ≠ ')')
      if inside = [] then none
      else
        match r.drop inside.length with
        | ')' :: rest => some (inside, rest)
        | _ => none
  | _ => none

/-- Lazy parent capture of the parenthetical pattern: extend the parent one
character at a time, preferring the earliest completion. -/
def tryParenAt (pAcc : Str) : Str → Option (Str × Str × Str)
  | [] => none
  | c :: rest =>
      match (if pAcc ≠ [] then tryFinishParen (c :: rest) else none) with
      | some (inside, after) => some (pAcc.reverse, inside, after)
      | none =>
          if c ≠ ',' ∧ c ≠ '(' then tryParenAt (c :: pAcc) rest else none

/-- Global replace pass for parentheticals: parent (inside) becomes
parent, inside. -/
def expandParenPass : Nat → Str → Str
  | 0, s => s
  | fuel + 1, s =>
      match s with
      | [] => []
      | c :: rest =>
          match tryParenAt [] (c :: rest) with
          | some (parent, inside, after) =>
              jsTrim parent ++ str ", " ++ inside ++ expandParenPass fuel after
          | none => c :: expandParenPass fuel rest

/-- Completion attempt of the bracket pattern. -/
def tryFinishBracket (l : Str) : Option (Str × Str) :=
  match l.dropWhile isJsWs with
  | '[' :: r =>
      let inside := r.takeWhile (fun c => c ≠ ']')
      if inside = [] then none
      else
        match r.drop inside.length with
        | ']' :: rest => some (inside, rest)
        | _ => none
  | _ => none

/-- Lazy parent capture of the bracket pattern. -/
def tryBracketAt (pAcc : Str) : Str → Option (Str × Str × Str)
  | [] => none
  | c :: rest =>
      match (if pAcc ≠ [] then tryFinishBracket (c :: rest) else none) with
      | some (inside, after) => some (pAcc.reverse, inside, after)
      | none =>
          if c ≠ ',' ∧ c ≠ '[' ∧ c ≠ ']' then tryBracketAt (c :: pAcc) rest else none

/-- Global replace pass for brackets. -/
def expandBracketPass : Nat → Str → Str
  | 0, s => s
  | fuel + 1, s =>
      match s with
      | [] => []
      | c :: rest =>
          match tryBracketAt [] (c :: rest) with
          | some (parent, inside, after) =>
              jsTrim parent ++ str ", " ++ inside ++ expandBracketPass fuel after
          | none => c :: expandBracketPass fuel rest

/-- expandParentheticals from ingredientNormalizer.ts. -/
def expandParentheticals (text : Str) : Str :=
  let afterParens := expandParenPass (text.length + 1) text
  expandBracketPass (afterParens.length + 1) afterParens

/-- Characters stripped from token edges by cleanIngredientToken. -/
def isStripChar (c : Char) : Bool :=
  c = '.' ∨ isJsWs c ∨ c = '*' ∨ c.toNat = 0x2022 ∨ c.toNat = 0xb7 ∨ c = '-'

/-- Strip leading and trailing runs of edge-noise characters. -/
def stripEdges (l : Str) : Str :=
  ((l.dropWhile isStripChar).reverse.dropWhile isStripChar).reverse

/-- Does the text consist entirely of optional whitespace, digits, an
optional decimal part, an optional percent sign, and trailing whitespace? -/
def numTailMatches (l : Str) : Bool :=
  let l1 := l.dropWhile isJsWs
  let ds := l1.takeWhile isDigit
  if ds = [] then false
  else
    let l2 := l1.drop ds.length
    let l3 : Option Str :=
      match l2 with
      | '.' :: r =>
          let ds2 := r.takeWhile isDigit
          if ds2 = [] then none else some (r.drop ds2.length)
      | _ => none
    let l4 := match l3 with | some x => x | none => l2
    let l5 := match l4 with | '%' :: r => r | _ => l4
    decide (l5.dropWhile isJsWs = [])

/-- Remove the trailing percentage annotation, if the tail matches. -/
def stripNumTail (l : Str) : Str :=
  match (List.range (l.length + 1)).find? (fun s => numTailMatches (l.drop s)) with
  | some s => l.take s
  | none => l

/-- After the digits of a leading quantity: optional decimal part and
optional percent sign; returns the remainder. -/
def dropNumSuffixParts (r : Str) : Str :=
  let l3 : Option Str :=
    match r with
    | '.' :: r2 =>
        let ds2 := r2.takeWhile isDigit
        if ds2 = [] then none else some (r2.drop ds2.length)
    | _ => none
  let l4 := match l3 with | some x => x | none => r
  match l4 with
  | '%' :: r2 => r2
  | _ => l4

/-- Optional case-insensitive of plus whitespace. -/
def dropOptOf (l : Str) : Str :=
  match ciDropLit? (str "of") l with
  | some r => dropWs r
  | none => l

/-- Remove a leading less than N percent of prefix, if present. -/
def stripLessThan (l : Str) : Str :=
  match ciDropLit? (str "less than ") l with
  | none => l
  | some r =>
      let ds := r.takeWhile isDigit
      if ds = [] then l
      else dropOptOf (dropWs (dropNumSuffixParts (r.drop ds.length)))

/-- Remove a leading N percent or less of prefix, if present. -/
def stripOrLess (l : Str) : Str :=
  let ds := l.takeWhile isDigit
  if ds = [] then l
  else
    match ciDropLit? (str "or less") (dropWs (dropNumSuffixParts (l.drop ds.length))) with
    | none => l
    | some r => dropWs (dropOptChar (fun c => c = ':' ∨ c = '.') (dropOptOf (dropWs r)))

/-- cleanIngredientToken from ingredientNormalizer.ts. -/
def cleanIngredientToken (token : Str) : Str :=
  lowerStr (jsTrim (collapseWs (stripOrLess (stripLessThan (stripNumTail (stripEdges token))))))

/-- Word boundary after a separator: end of text or a non-word character. -/
def boundaryAfter (l : Str) : Bool :=
  match l with
  | [] => true
  | c :: _ => !isWordChar c

/-- Split a part on word-bounded and/or or and, case-insensitively. -/
def splitAndOrGo : Nat → Bool → Str → List Str
  | 0, _, _ => [[]]
  | fuel + 1, prevNonWord, l =>
      let sep : Option Str :=
        if prevNonWord then
          match ciDropLit? (str "and/or") l with
          | some r => if boundaryAfter r then some r else none
          | none =>
              match ciDropLit? (str "and") l with
              | some r => if boundaryAfter r then some r else none
              | none => none
        else none
      match sep with
      | some r => [] :: splitAndOrGo fuel false r
      | none =>
          match l with
          | [] => [[]]
          | c :: rest => consHead c (splitAndOrGo fuel (!isWordChar c) rest)

/-- The and/and-or split of splitIngredients. -/
def splitAndOr (l : Str) : List Str := splitAndOrGo (l.length + 1) true l

/-- splitIngredients from ingredientNormalizer.ts. -/
def splitIngredients (text : Str) : List Str :=
  let expanded := expandParentheticals text
  let parts := ((splitCommaSemi expanded).map jsTrim).filter (fun p => p ≠ [])
  (parts.map (fun part =>
    ((splitAndOr part).map cleanIngredientToken).filter (fun t => t ≠ []))).flatten

/-- Split a contains-style list on commas, semicolons, or word-bounded and. -/
def splitSimpleGo : Nat → Bool → Str → List Str
  | 0, _, _ => [[]]
  | fuel + 1, prevNonWord, l =>
      match l with
      | [] => [[]]
      | c :: rest =>
          if c = ',' ∨ c = ';' then [] :: splitSimpleGo fuel (!isWordChar c) rest
          else
            let sep : Option Str :=
              if prevNonWord then
                match ciDropLit? (str "and") l with
                | some r => if boundaryAfter r then some r else none
                | none => none
              else none
            match sep with
            | some r => [] :: splitSimpleGo fuel false r
            | none => consHead c (splitSimpleGo fuel (!isWordChar c) rest)

/-- splitSimpleList from ingredientNormalizer.ts: split, trim, lowercase,
and keep only tokens that are non-empty and shorter than 50 characters. -/
def splitSimpleList (text : Str) : List Str :=
  ((splitSimpleGo (text.length + 1) true text).map (fun s => lowerStr (jsTrim s))).filter
    (fun s => decide (s ≠ []) && decide (s.length < 50))

/-- A fully parsed ingredient label. -/
structure ParsedLabel where
  ingredients : List Str
  ingredientsRawText : Str
  containsStatements : List Str
  mayContainStatements : List Str
  normalizedText : Str
  sections : SectionBoundaries
deriving DecidableEq, Repr

/-- parseIngredientLabel from ingredientNormalizer.ts; the JavaScript
||-fallbacks on empty section texts are embedded explicitly. -/
def parseIngredientLabel (rawText : Str) : ParsedLabel :=
  let normalizedText := normalizeText rawText
  let sections := detectSections normalizedText
  let ingredientsRaw :=
    match sections.ingredientsText with
    | some t => if t = [] then normalizedText else t
    | none => normalizedText
  { ingredients := splitIngredients ingredientsRaw
    ingredientsRawText := ingredientsRaw
    containsStatements :=
      match sections.containsText with
      | some t => if t = [] then [] else splitSimpleList t
      | none => []
    mayContainStatements :=
      match sections.mayContainText with
      | some t => if t = [] then [] else splitSimpleList t
      | none => []
    normalizedText := normalizedText
    sections := sections.boundaries }

/-- Boundary class before an evidence match. -/
def isBoundaryBeforeChar (c : Char) : Bool :=
  isJsWs c ∨ c = ',' ∨ c = ';' ∨ c = ':' ∨ c = '(' ∨ c = '[' ∨ c = ']' ∨
  c = '.' ∨ c = '/' ∨ c = '-'

/-- Boundary class after an evidence match. -/
def isBoundaryAfterChar (c : Char) : Bool :=
  isJsWs c ∨ c = ',' ∨ c = ';' ∨ c = ':' ∨ c = ')' ∨ c = ']' ∨
  c = '.' ∨ c = '/' ∨ c = '-'

/-- Scan for the least occurrence index, counting down remaining fuel. -/
def indexOfGo (text term : Str) : Nat → Nat → Option Nat
  | 0, _ => none
  | fuel + 1, i =>
      if text.length < i then none
      else if occursAt text term i then some i
      else indexOfGo text term fuel (i + 1)

/-- JavaScript indexOf from a given position: the least occurrence index
at or after it. -/
def indexOfFrom (text term : Str) (pos : Nat) : Option Nat :=
  indexOfGo text term (text.length + 1 - pos) pos

/-- The findEvidenceSpans scanning loop. -/
def findSpansGo (lt lterm : Str) : Nat → Nat → List Span
  | 0, _ => []
  | fuel + 1, pos =>
      if pos < lt.length then
        match indexOfFrom lt lterm pos with
        | none => []
        | some idx =>
            let charBefore := if 0 < idx then (lt.drop (idx - 1)).headD ' ' else ' '
            let charAfter :=
              if idx + lterm.length < lt.length then (lt.drop (idx + lterm.length)).headD ' '
              else ' '
            let rest := findSpansGo lt lterm fuel (idx + 1)
            if isBoundaryBeforeChar charBefore ∧ isBoundaryAfterChar charAfter then
              ⟨idx, idx + lterm.length⟩ :: rest
            else rest
      else []

/-- findEvidenceSpans from ingredientNormalizer.ts. -/
def findEvidenceSpans (rawText searchTerm : Str) : List Span :=
  findSpansGo (lowerStr rawText) (lowerStr searchTerm) (rawText.length + 1) 0

/-! ## policyEngine.ts -/

/-- Finding categories of the policy engine. -/
inductive FindingKind
  | ALLERGEN
  | DIETARY
  | FORBIDDEN_KEYWORD
deriving DecidableEq, Repr

/-- Finding severities of the policy engine. -/
inductive FindingSeverity
  | UNSAFE
  | CAUTION
deriving DecidableEq, Repr

/-- Label sections a finding can come from. -/
inductive FindingSource
  | ingredients
  | containsSection
  | mayContainSection
deriving DecidableEq, Repr

/-- Overall per-profile statuses. -/
inductive PolicyStatus
  | SAFE
  | CAUTION
  | UNSAFE
deriving DecidableEq, Repr

/-- One piece of evidence that a profile conflicts with label content. -/
structure Finding where
  kind : FindingKind
  severity : FindingSeverity
  matchedText : Str
  canonicalTerm : Str
  reason : Str
  evidenceSpans : List Span
  source : FindingSource
  confidence : ℚ
deriving DecidableEq, Repr

/-- The per-profile result of the policy engine. -/
structure PolicyResult where
  status : PolicyStatus
  findings : List Finding
  confidence : ℚ
  profileId : Str
  profileName : Str
  allergenCount : Nat
  dietaryCount : Nat
  keywordCount : Nat
deriving DecidableEq, Repr

/-- The engine-facing user profile; the optional source fields default to
empty list / false at this boundary. -/
structure UserProfile where
  id : Str
  name : Str
  allergies : List Str
  customAllergies : List Str
  preferences : List Str
  customPreferences : List Str
  forbiddenKeywords : List Str
  treatMayContainAsUnsafe : Bool
deriving DecidableEq, Repr

/-- Modelled from the spec: the allergen synonym map of allergenDatabase.ts
is imported by the policy engine but its source is not part of this
repository snapshot; the spec describes it as a static map from lowercase
ingredient synonyms to canonical allergen names, with butter mapping to
Milk, lecithin to Soy, livetin to Eggs, and whey powder to Milk among its
entries. -/
def ALLERGEN_SYNONYM_MAP : List (Str × Str) :=
  [(str "milk", str "Milk"), (str "butter", str "Milk"), (str "cream", str "Milk"),
   (str "whey", str "Milk"), (str "whey powder", str "Milk"), (str "casein", str "Milk"),
   (str "cheese", str "Milk"),
   (str "egg", str "Eggs"), (str "albumin", str "Eggs"), (str "livetin", str "Eggs"),
   (str "wheat", str "Wheat"), (str "wheat flour", str "Wheat"), (str "gluten", str "Wheat"),
   (str "soy", str "Soy"), (str "soybean", str "Soy"), (str "lecithin", str "Soy"),
   (str "soy lecithin", str "Soy"),
   (str "peanut", str "Peanuts"), (str "peanut butter", str "Peanuts"),
   (str "almond", str "Tree Nuts"), (str "cashew", str "Tree Nuts"),
   (str "sesame", str "Sesame"), (str "tahini", str "Sesame"),
   (str "fish", str "Fish"), (str "anchovy", str "Fish"),
   (str "shrimp", str "Shellfish"), (str "crab", str "Shellfish")]

/-- The known-false-positive exclusion table of checkAllergens. -/
def FALSE_POSITIVE_EXCLUSIONS : List (Str × List Str) :=
  [(str "Milk",
    [str "cocoa butter", str "shea butter", str "mango butter", str "kokum butter",
     str "peanut butter", str "almond butter", str "cashew butter", str "sunflower butter",
     str "nut butter", str "seed butter", str "soy butter", str "coconut butter"]),
   (str "Soy",
    [str "sunflower lecithin"]),
   (str "Eggs",
    [str "live and active cultures", str "live cultures", str "live active cultures"])]

/-- isFalsePositive from checkAllergens: the ingredient contains a known
exclusion phrase registered for the allergen. -/
def isFalsePositive (ingredientLower allergen : Str) : Bool :=
  match FALSE_POSITIVE_EXCLUSIONS.find? (fun e => e.1 = allergen) with
  | none => false
  | some e => e.2.any (fun excl => includes ingredientLower excl)

/-- Absolute length difference of two embedded strings is at most n. -/
def lengthDiffLe (a b : Str) (n : Nat) : Bool :=
  decide (a.length - b.length ≤ n ∧ b.length - a.length ≤ n)

/-- The ingredient-loop body of checkAllergens: exact synonym lookup, then
substring synonym match, then direct allergy-name match, each pushing at
most one finding and respecting the in-loop duplicate checks. -/
def allergenIngredientStep (userSet allAllergies : List Str) (rawText : Str)
    (findings : List Finding) (ingredient : Str) : List Finding :=
  let lower := jsTrim (lowerStr ingredient)
  let hitA : Option Str :=
    match (ALLERGEN_SYNONYM_MAP.find? (fun e => e.1 = lower)).map (fun e => e.2) with
    | some canonical =>
        if decide (lowerStr canonical ∈ userSet) && !isFalsePositive lower canonical then
          some canonical
        else none
    | none => none
  match hitA with
  | some canonical =>
      findings ++ [{ kind := FindingKind.ALLERGEN
                     severity := FindingSeverity.UNSAFE
                     matchedText := ingredient
                     canonicalTerm := canonical
                     reason := str "\"" ++ ingredient ++ str "\" is a " ++ canonical ++
                       str " derivative — " ++ canonical ++ str " allergen"
                     evidenceSpans := findEvidenceSpans rawText ingredient
                     source := FindingSource.ingredients
                     confidence := 1 }]
  | none =>
      let hitB := ALLERGEN_SYNONYM_MAP.find? (fun te =>
        decide (lowerStr te.2 ∈ userSet) &&
        (includes lower te.1 || (includes te.1 lower && lengthDiffLe te.1 lower 3)) &&
        !isFalsePositive lower te.2 &&
        !(findings.any (fun f =>
          decide (f.kind = FindingKind.ALLERGEN ∧ f.canonicalTerm = te.2 ∧
            f.matchedText = ingredient))))
      let findingsB :=
        match hitB with
        | some te =>
            findings ++ [{ kind := FindingKind.ALLERGEN
                           severity := FindingSeverity.UNSAFE
                           matchedText := ingredient
                           canonicalTerm := te.2
                           reason := str "\"" ++ ingredient ++ str "\" contains \"" ++ te.1 ++
                             str "\" — " ++ te.2 ++ str " allergen"
                           evidenceSpans := findEvidenceSpans rawText ingredient
                           source := FindingSource.ingredients
                           confidence := 9/10 }]
        | none => findings
      allAllergies.foldl (fun acc allergen =>
        let lowerAllergen := lowerStr allergen
        if includes lower lowerAllergen || includes lowerAllergen lower then
          if acc.any (fun f =>
              decide (f.kind = FindingKind.ALLERGEN ∧ f.matchedText = ingredient)) then acc
          else
            acc ++ [{ kind := FindingKind.ALLERGEN
                      severity := FindingSeverity.UNSAFE
                      matchedText := ingredient
                      canonicalTerm := allergen
                      reason := str "\"" ++ ingredient ++ str "\" matches your \"" ++
                        allergen ++ str "\" allergy"
                      evidenceSpans := findEvidenceSpans rawText ingredient
                      source := FindingSource.ingredients
                      confidence := 17/20 }]
        else acc) findingsB

/-- The contains-statement loop body of checkAllergens. -/
def allergenContainsStep (allAllergies : List Str) (rawText : Str)
    (findings : List Finding) (statement : Str) : List Finding :=
  allAllergies.foldl (fun acc allergen =>
    let lowerAllergen := lowerStr allergen
    if includes statement lowerAllergen || includes lowerAllergen statement then
      if acc.any (fun f =>
          decide (f.kind = FindingKind.ALLERGEN ∧ lowerStr f.canonicalTerm = lowerAllergen))
      then acc
      else
        acc ++ [{ kind := FindingKind.ALLERGEN
                  severity := FindingSeverity.UNSAFE
                  matchedText := statement
                  canonicalTerm := allergen
                  reason := str "Label declares \"Contains: " ++ statement ++
                    str "\" — " ++ allergen ++ str " allergen"
                  evidenceSpans := findEvidenceSpans rawText statement
                  source := FindingSource.containsSection
                  confidence := 1 }]
    else acc) findings

/-- The may-contain-statement loop body of checkAllergens. -/
def allergenMayContainStep (allAllergies : List Str) (rawText : Str)
    (treatMayContainAsUnsafe : Bool)
    (findings : List Finding) (statement : Str) : List Finding :=
  allAllergies.foldl (fun acc allergen =>
    let lowerAllergen := lowerStr allergen
    if includes statement lowerAllergen || includes lowerAllergen statement then
      if acc.any (fun f =>
          decide (f.kind = FindingKind.ALLERGEN ∧ lowerStr f.canonicalTerm = lowerAllergen ∧
            f.source = FindingSource.mayContainSection))
      then acc
      else
        acc ++ [{ kind := FindingKind.ALLERGEN
                  severity := if treatMayContainAsUnsafe then FindingSeverity.UNSAFE
                    else FindingSeverity.CAUTION
                  matchedText := statement
                  canonicalTerm := allergen
                  reason := str "Label warns \"May contain: " ++ statement ++
                    str "\" — possible " ++ allergen ++ str " cross-contamination"
                  evidenceSpans := findEvidenceSpans rawText statement
                  source := FindingSource.mayContainSection
                  confidence := 3/5 }]
    else acc) findings

/-- Remove duplicate findings sharing kind, canonical term and matched text. -/
def dedupGo : List (FindingKind × Str × Str) → List Finding → List Finding
  | _, [] => []
  | seen, f :: rest =>
      let key := (f.kind, f.canonicalTerm, f.matchedText)
      if key ∈ seen then dedupGo seen rest
      else f :: dedupGo (key :: seen) rest

/-- deduplicateFindings from policyEngine.ts. -/
def deduplicateFindings (findings : List Finding) : List Finding :=
  dedupGo [] findings

/-- checkAllergens from policyEngine.ts. -/
def checkAllergens (parsedLabel : ParsedLabel) (profile : UserProfile)
    (rawText : Str) : List Finding :=
  let allAllergies := profile.allergies ++ profile.customAllergies
  if allAllergies = [] then []
  else
    let userSet := allAllergies.map lowerStr
    let f1 := parsedLabel.ingredients.foldl
      (allergenIngredientStep userSet allAllergies rawText) []
    let f2 := parsedLabel.containsStatements.foldl
      (allergenContainsStep allAllergies rawText) f1
    let f3 := parsedLabel.mayContainStatements.foldl
      (allergenMayContainStep allAllergies rawText profile.treatMayContainAsUnsafe) f2
    deduplicateFindings f3

/-- One dietary rule of dietaryDatabase.ts. -/
structure DietaryRule where
  key : Str
  label : Str
  description : Str
  violationTerms : List Str
  cautionTerms : List Str
  reasonTemplate : Str
deriving DecidableEq, Repr

/-- DIETARY_RULES from dietaryDatabase.ts, as an association list from
preference key to rule. -/
def DIETARY_RULES : List (Str × DietaryRule) := [
  (str "Vegan",
   { key := str "Vegan"
     label := str "Vegan"
     description := str "No animal-derived ingredients"
     violationTerms := [str "milk", str "cream", str "butter", str "cheese", str "whey", str "casein",
       str "caseinate", str "lactose", str "yogurt", str "yoghurt", str "ghee",
       str "buttermilk", str "custard", str "ice cream", str "gelato", str "paneer",
       str "kefir", str "curds", str "sour cream", str "cream cheese", str "ricotta",
       str "mozzarella", str "parmesan", str "cheddar", str "lactalbumin",
       str "lactoglobulin", str "whey protein", str "milk powder", str "milk solids",
       str "butterfat", str "half and half", str "nougat", str "egg", str "eggs",
       str "egg white", str "egg yolk", str "albumin", str "albumen", str "mayonnaise",
       str "mayo", str "meringue", str "lysozyme", str "ovalbumin", str "ovomucoid",
       str "eggnog", str "beef", str "pork", str "chicken", str "turkey", str "lamb",
       str "veal", str "duck", str "goose", str "venison", str "bison", str "bacon",
       str "ham", str "sausage", str "salami", str "pepperoni", str "prosciutto",
       str "chorizo", str "jerky", str "meat", str "meat extract", str "meat broth",
       str "bone broth", str "bone marrow", str "lard", str "tallow", str "suet",
       str "dripping", str "schmaltz", str "fish", str "salmon", str "tuna", str "cod",
       str "shrimp", str "prawn", str "crab", str "lobster", str "clam", str "mussel",
       str "oyster", str "scallop", str "squid", str "calamari", str "anchovy",
       str "anchovies", str "sardine", str "fish sauce", str "oyster sauce", str "fish oil",
       str "surimi", str "gelatin", str "gelatine", str "collagen", str "isinglass",
       str "honey", str "beeswax", str "royal jelly", str "propolis", str "carmine",
       str "cochineal", str "shellac", str "lanolin", str "pepsin", str "rennet",
       str "castor", str "vitamin d3", str "omega-3"]
     cautionTerms := [str "natural flavors", str "natural flavours", str "natural flavor",
       str "artificial flavors", str "mono and diglycerides", str "mono-diglyceride",
       str "lecithin", str "vitamin d", str "stearic acid", str "glycerin", str "glycerine",
       str "l-cysteine", str "confectioner" ++ Char.ofNat 39 :: str "s glaze", str "oleic acid", str "palmitic acid",
       str "capric acid"]
     reasonTemplate := str "not vegan (animal-derived)" }),
  (str "Vegetarian",
   { key := str "Vegetarian"
     label := str "Vegetarian"
     description := str "No meat, poultry, or fish (dairy and eggs OK)"
     violationTerms := [str "beef", str "pork", str "chicken", str "turkey", str "lamb", str "veal",
       str "duck", str "goose", str "venison", str "bison", str "bacon", str "ham",
       str "sausage", str "salami", str "pepperoni", str "prosciutto", str "chorizo",
       str "jerky", str "meat", str "meat extract", str "meat broth", str "bone broth",
       str "bone marrow", str "lard", str "tallow", str "suet", str "dripping",
       str "schmaltz", str "fish", str "salmon", str "tuna", str "cod", str "shrimp",
       str "prawn", str "crab", str "lobster", str "clam", str "mussel", str "oyster",
       str "scallop", str "squid", str "calamari", str "anchovy", str "anchovies",
       str "sardine", str "fish sauce", str "oyster sauce", str "fish oil", str "surimi",
       str "gelatin", str "gelatine", str "isinglass", str "rennet", str "carmine",
       str "cochineal"]
     cautionTerms := [str "natural flavors", str "natural flavours", str "worcestershire sauce",
       str "caesar dressing"]
     reasonTemplate := str "not vegetarian (contains meat/fish)" }),
  (str "Gluten-free",
   { key := str "Gluten-free"
     label := str "Gluten-Free"
     description := str "No wheat, barley, rye, or their derivatives"
     violationTerms := [str "wheat", str "wheat flour", str "whole wheat", str "wheat starch",
       str "wheat germ", str "wheat bran", str "wheat gluten", str "wheat protein",
       str "gluten", str "vital wheat gluten", str "enriched flour", str "bleached flour",
       str "unbleached flour", str "all-purpose flour", str "all purpose flour",
       str "bread flour", str "cake flour", str "pastry flour", str "self-rising flour",
       str "semolina", str "durum", str "durum wheat", str "spelt", str "kamut",
       str "farina", str "farro", str "einkorn", str "emmer", str "triticale", str "bulgur",
       str "couscous", str "seitan", str "barley", str "barley malt", str "malt",
       str "malt extract", str "malt syrup", str "malt flavoring", str "malt vinegar",
       str "brewer's yeast", str "rye", str "rye flour", str "pumpernickel",
       str "bread crumbs", str "breadcrumbs", str "panko", str "cracker meal",
       str "graham flour", str "matzo", str "matzoh", str "pasta", str "noodles",
       str "orzo", str "roux", str "hydrolyzed wheat protein", str "modified wheat starch"]
     cautionTerms := [str "modified food starch", str "modified starch", str "natural flavors",
       str "natural flavours", str "caramel color", str "dextrin", str "oats", str "oat",
       str "oat flour", str "soy sauce"]
     reasonTemplate := str "contains gluten" }),
  (str "Dairy-free",
   { key := str "Dairy-free"
     label := str "Dairy-Free"
     description := str "No milk or milk-derived ingredients"
     violationTerms := [str "milk", str "cream", str "butter", str "cheese", str "whey", str "casein",
       str "caseinate", str "lactose", str "yogurt", str "yoghurt", str "ghee",
       str "buttermilk", str "custard", str "ice cream", str "gelato", str "paneer",
       str "kefir", str "curds", str "sour cream", str "cream cheese", str "ricotta",
       str "mozzarella", str "parmesan", str "cheddar", str "lactalbumin",
       str "lactoglobulin", str "whey protein", str "milk powder", str "milk solids",
       str "butterfat", str "half and half", str "sodium caseinate",
       str "calcium caseinate", str "nonfat milk", str "skim milk", str "whole milk",
       str "milk protein", str "condensed milk", str "evaporated milk", str "dry milk",
       str "dried milk"]
     cautionTerms := [str "natural flavors", str "natural flavours", str "caramel color",
       str "caramel colour"]
     reasonTemplate := str "contains dairy" }),
  (str "Nut-free",
   { key := str "Nut-free"
     label := str "Nut-Free"
     description := str "No tree nuts or peanuts"
     violationTerms := [str "peanut", str "peanuts", str "peanut butter", str "peanut oil",
       str "peanut flour", str "almond", str "almonds", str "almond butter",
       str "almond milk", str "almond flour", str "almond extract", str "almond paste",
       str "marzipan", str "cashew", str "cashews", str "cashew butter", str "walnut",
       str "walnuts", str "pecan", str "pecans", str "pistachio", str "pistachios",
       str "brazil nut", str "brazil nuts", str "hazelnut", str "hazelnuts", str "filbert",
       str "filberts", str "macadamia", str "macadamia nut", str "macadamia nuts",
       str "pine nut", str "pine nuts", str "pignoli", str "praline", str "pralines",
       str "gianduja", str "nutella", str "nut butter", str "nut oil", str "nut paste",
       str "nut extract", str "nut meal", str "nut flour", str "mixed nuts", str "chestnut",
       str "chestnuts", str "groundnuts", str "arachis oil", str "nougat"]
     cautionTerms := [str "coconut", str "natural flavors", str "natural flavours"]
     reasonTemplate := str "contains nuts" }),
  (str "Keto / Low-carb",
   { key := str "Keto / Low-carb"
     label := str "Keto / Low-Carb"
     description := str "Avoid high-carb and high-sugar ingredients"
     violationTerms := [str "sugar", str "cane sugar", str "brown sugar", str "powdered sugar",
       str "confectioners sugar", str "turbinado sugar", str "raw sugar",
       str "high fructose corn syrup", str "hfcs", str "corn syrup", str "agave",
       str "agave nectar", str "agave syrup", str "honey", str "maple syrup",
       str "molasses", str "treacle", str "rice syrup", str "brown rice syrup",
       str "barley malt syrup", str "dextrose", str "glucose", str "glucose syrup",
       str "fructose", str "sucrose", str "maltose", str "galactose", str "wheat flour",
       str "all-purpose flour", str "bread flour", str "enriched flour",
       str "whole wheat flour", str "rice", str "white rice", str "brown rice",
       str "rice flour", str "corn starch", str "cornstarch", str "corn flour",
       str "cornmeal", str "potato starch", str "potato flour", str "tapioca",
       str "tapioca starch", str "arrowroot", str "bread crumbs", str "breadcrumbs",
       str "panko", str "pasta", str "noodles", str "couscous", str "maltodextrin"]
     cautionTerms := [str "modified food starch", str "modified starch", str "natural sweetener",
       str "fruit juice concentrate", str "evaporated cane juice", str "invert sugar",
       str "oat flour", str "oats"]
     reasonTemplate := str "high in carbohydrates (not keto-friendly)" }),
  (str "Low-sodium",
   { key := str "Low-sodium"
     label := str "Low-Sodium"
     description := str "Avoid high-sodium ingredients"
     violationTerms := [str "salt", str "sea salt", str "table salt", str "kosher salt",
       str "sodium chloride", str "msg", str "monosodium glutamate", str "sodium nitrate",
       str "sodium nitrite", str "sodium benzoate", str "sodium phosphate",
       str "sodium bicarbonate", str "baking soda", str "soy sauce", str "tamari",
       str "shoyu", str "fish sauce", str "bouillon", str "broth", str "stock",
       str "worcestershire sauce"]
     cautionTerms := [str "seasoning", str "seasoning blend", str "spice blend", str "natural flavors",
       str "hydrolyzed protein"]
     reasonTemplate := str "high in sodium" }),
  (str "Pescatarian",
   { key := str "Pescatarian"
     label := str "Pescatarian"
     description := str "No meat or poultry (fish and seafood OK)"
     violationTerms := [str "beef", str "pork", str "chicken", str "turkey", str "lamb", str "veal",
       str "duck", str "goose", str "venison", str "bison", str "bacon", str "ham",
       str "sausage", str "salami", str "pepperoni", str "prosciutto", str "chorizo",
       str "jerky", str "meat", str "meat extract", str "meat broth", str "bone broth",
       str "lard", str "tallow", str "suet", str "dripping", str "schmaltz"]
     cautionTerms := [str "natural flavors", str "natural flavours", str "gelatin", str "gelatine"]
     reasonTemplate := str "contains meat/poultry (not pescatarian)" }),
  (str "Paleo",
   { key := str "Paleo"
     label := str "Paleo"
     description := str "No grains, legumes, dairy, refined sugar, or processed foods"
     violationTerms := [str "wheat", str "wheat flour", str "rice", str "corn", str "oats", str "barley",
       str "rye", str "quinoa", str "bulgur", str "couscous", str "pasta", str "noodles",
       str "bread", str "soybean", str "soy", str "lentil", str "lentils", str "chickpea",
       str "chickpeas", str "black bean", str "kidney bean", str "pinto bean",
       str "navy bean", str "peanut", str "peanuts", str "peanut butter", str "tofu",
       str "tempeh", str "edamame", str "milk", str "cream", str "butter", str "cheese",
       str "whey", str "casein", str "yogurt", str "sugar", str "cane sugar",
       str "high fructose corn syrup", str "corn syrup", str "dextrose", str "maltodextrin",
       str "soybean oil", str "canola oil", str "vegetable oil", str "corn oil",
       str "margarine", str "shortening"]
     cautionTerms := [str "natural flavors", str "modified food starch", str "xanthan gum", str "guar gum",
       str "carrageenan"]
     reasonTemplate := str "not paleo-compatible" }),
  (str "Low-FODMAP",
   { key := str "Low-FODMAP"
     label := str "Low-FODMAP"
     description := str "Avoid fermentable carbohydrates that cause digestive issues"
     violationTerms := [str "garlic", str "garlic powder", str "onion", str "onion powder",
       str "high fructose corn syrup", str "hfcs", str "agave", str "honey", str "inulin",
       str "chicory root", str "chicory root fiber", str "fructo-oligosaccharides",
       str "fos", str "sorbitol", str "mannitol", str "xylitol", str "maltitol",
       str "isomalt", str "apple juice concentrate", str "pear juice concentrate",
       str "lactose", str "milk", str "cream", str "ice cream", str "yogurt", str "wheat",
       str "rye", str "barley", str "chickpeas", str "lentils", str "black beans",
       str "kidney beans"]
     cautionTerms := [str "natural flavors", str "spices", str "seasoning", str "mushroom",
       str "mushrooms", str "cauliflower"]
     reasonTemplate := str "high-FODMAP ingredient" }),
  (str "Halal",
   { key := str "Halal"
     label := str "Halal"
     description := str "No pork, alcohol, or non-halal animal derivatives"
     violationTerms := [str "pork", str "ham", str "bacon", str "prosciutto", str "pancetta", str "lard",
       str "pork gelatin", str "pork fat", str "pork rind", str "pepperoni", str "salami",
       str "chorizo", str "alcohol", str "ethanol", str "wine", str "beer", str "rum",
       str "brandy", str "bourbon", str "whiskey", str "whisky", str "vodka", str "gin",
       str "liqueur", str "liquor", str "mirin", str "wine vinegar", str "red wine",
       str "white wine", str "vanilla extract"]
     cautionTerms := [str "gelatin", str "gelatine", str "glycerin", str "glycerine",
       str "mono and diglycerides", str "mono-diglyceride", str "l-cysteine",
       str "natural flavors", str "natural flavours", str "enzymes", str "rennet",
       str "emulsifier", str "e471", str "e472", str "stearic acid"]
     reasonTemplate := str "not halal" }),
  (str "Kosher",
   { key := str "Kosher"
     label := str "Kosher"
     description := str "Follows Jewish dietary laws"
     violationTerms := [str "pork", str "ham", str "bacon", str "lard", str "pork gelatin", str "shellfish",
       str "shrimp", str "crab", str "lobster", str "clam", str "mussel", str "oyster",
       str "scallop", str "squid", str "calamari"]
     cautionTerms := [str "gelatin", str "gelatine", str "glycerin", str "glycerine",
       str "natural flavors", str "natural flavours", str "enzymes", str "rennet",
       str "emulsifier", str "mono and diglycerides", str "stearic acid"]
     reasonTemplate := str "not kosher" })]

/-- Known plant-based terms excluded from dietary violations. -/
def PLANT_BASED_EXCEPTIONS : List Str :=
  [str "cocoa butter", str "shea butter", str "mango butter", str "kokum butter",
   str "peanut butter", str "almond butter", str "cashew butter", str "sunflower butter",
   str "nut butter", str "seed butter", str "coconut butter", str "soy butter",
   str "almond milk", str "oat milk", str "soy milk", str "coconut milk", str "rice milk",
   str "cashew milk", str "hemp milk",
   str "coconut cream", str "coconut oil",
   str "sunflower lecithin"]

/-- The ambiguous terms for which plant-based exceptions apply. -/
def ambiguousTerms : List Str :=
  [str "butter", str "milk", str "cream", str "lecithin", str "ice cream"]

/-- isPlantBasedException from checkDietaryPreferences. -/
def isPlantBasedException (ingredientLower violationTerm : Str) : Bool :=
  decide (violationTerm ∈ ambiguousTerms) &&
    PLANT_BASED_EXCEPTIONS.any (fun exc => includes ingredientLower exc)

/-- The per-ingredient body of the dietary matcher: at most one violation
finding and one caution finding per ingredient and rule, with the in-loop
duplicate checks of the source. -/
def dietaryIngredientStep (rawText : Str) (rule : DietaryRule)
    (findings : List Finding) (ingredient : Str) : List Finding :=
  let lower := jsTrim (lowerStr ingredient)
  let hitV := rule.violationTerms.find? (fun term =>
    (includes lower term ||
      (includes term lower && decide (3 ≤ lower.length) && lengthDiffLe term lower 4)) &&
    !isPlantBasedException lower term &&
    !(findings.any (fun f =>
      decide (f.kind = FindingKind.DIETARY ∧ f.canonicalTerm = rule.label ∧
        f.matchedText = ingredient))))
  let f1 :=
    match hitV with
    | some _ =>
        findings ++ [{ kind := FindingKind.DIETARY
                       severity := FindingSeverity.UNSAFE
                       matchedText := ingredient
                       canonicalTerm := rule.label
                       reason := str "\"" ++ ingredient ++ str "\" is " ++
                         rule.reasonTemplate ++ str " — violates " ++ rule.label ++
                         str " preference"
                       evidenceSpans := findEvidenceSpans rawText ingredient
                       source := FindingSource.ingredients
                       confidence := 19/20 }]
    | none => findings
  let hitC := rule.cautionTerms.find? (fun term =>
    (includes lower term ||
      (includes term lower && decide (3 ≤ lower.length) && lengthDiffLe term lower 4)) &&
    !(f1.any (fun f =>
      decide (f.kind = FindingKind.DIETARY ∧ f.canonicalTerm = rule.label ∧
        f.matchedText = ingredient))))
  match hitC with
  | some _ =>
      f1 ++ [{ kind := FindingKind.DIETARY
               severity := FindingSeverity.CAUTION
               matchedText := ingredient
               canonicalTerm := rule.label
               reason := str "\"" ++ ingredient ++ str "\" may be " ++
                 rule.reasonTemplate ++ str " — check if compatible with " ++ rule.label
               evidenceSpans := findEvidenceSpans rawText ingredient
               source := FindingSource.ingredients
               confidence := 3/5 }]
  | none => f1

/-- The per-preference body of the dietary matcher: unknown preference
keys are silently skipped. -/
def dietaryPrefStep (parsedLabel : ParsedLabel) (rawText : Str)
    (acc : List Finding) (prefKey : Str) : List Finding :=
  match DIETARY_RULES.find? (fun e => e.1 = prefKey) with
  | none => acc
  | some e => parsedLabel.ingredients.foldl (dietaryIngredientStep rawText e.2) acc

/-- checkDietaryPreferences from policyEngine.ts. -/
def checkDietaryPreferences (parsedLabel : ParsedLabel) (profile : UserProfile)
    (rawText : Str) : List Finding :=
  let allPreferences := profile.preferences ++ profile.customPreferences
  if allPreferences = [] then []
  else
    deduplicateFindings (allPreferences.foldl (dietaryPrefStep parsedLabel rawText) [])

/-- The per-keyword body of the forbidden-keyword matcher. -/
def keywordStep (parsedLabel : ParsedLabel) (rawText : Str)
    (findings : List Finding) (keyword : Str) : List Finding :=
  let lowerKeyword := jsTrim (lowerStr keyword)
  if lowerKeyword = [] then findings
  else
    let hit := parsedLabel.ingredients.find? (fun ingredient =>
      let lower := jsTrim (lowerStr ingredient)
      includes lower lowerKeyword || includes lowerKeyword lower)
    let f1 :=
      match hit with
      | some ingredient =>
          findings ++ [{ kind := FindingKind.FORBIDDEN_KEYWORD
                         severity := FindingSeverity.UNSAFE
                         matchedText := ingredient
                         canonicalTerm := keyword
                         reason := str "\"" ++ ingredient ++
                           str "\" matches your forbidden keyword \"" ++ keyword ++ str "\""
                         evidenceSpans := findEvidenceSpans rawText ingredient
                         source := FindingSource.ingredients
                         confidence := 1 }]
      | none => findings
    if includes (lowerStr rawText) lowerKeyword then
      if f1.any (fun f =>
          decide (f.kind = FindingKind.FORBIDDEN_KEYWORD ∧
            lowerStr f.canonicalTerm = lowerKeyword)) then f1
      else
        let spans := findEvidenceSpans rawText keyword
        if spans ≠ [] then
          f1 ++ [{ kind := FindingKind.FORBIDDEN_KEYWORD
                   severity := FindingSeverity.UNSAFE
                   matchedText := keyword
                   canonicalTerm := keyword
                   reason := str "Found forbidden keyword \"" ++ keyword ++
                     str "\" in label text"
                   evidenceSpans := spans
                   source := FindingSource.ingredients
                   confidence := 9/10 }]
        else f1
    else f1

/-- checkForbiddenKeywords from policyEngine.ts. -/
def checkForbiddenKeywords (parsedLabel : ParsedLabel) (profile : UserProfile)
    (rawText : Str) : List Finding :=
  let keywords := profile.forbiddenKeywords
  if keywords = [] then []
  else
    deduplicateFindings (keywords.foldl (keywordStep parsedLabel rawText) [])

/-- evaluateLabel from policyEngine.ts: run the three matchers and
aggregate status, minimum confidence and per-kind counts. -/
def evaluateLabel (parsedLabel : ParsedLabel) (profile : UserProfile) : PolicyResult :=
  let rawText := parsedLabel.normalizedText
  let findings :=
    checkAllergens parsedLabel profile rawText ++
    checkDietaryPreferences parsedLabel profile rawText ++
    checkForbiddenKeywords parsedLabel profile rawText
  let hasUnsafe := findings.any (fun f => decide (f.severity = FindingSeverity.UNSAFE))
  let hasCaution := findings.any (fun f => decide (f.severity = FindingSeverity.CAUTION))
  let status :=
    if hasUnsafe then PolicyStatus.UNSAFE
    else if hasCaution then PolicyStatus.CAUTION
    else PolicyStatus.SAFE
  let confidence : ℚ :=
    match findings.map (fun f => f.confidence) with
    | [] => 1
    | c :: cs => cs.foldl min c
  { status := status
    findings := findings
    confidence := confidence
    profileId := profile.id
    profileName := profile.name
    allergenCount := (findings.filter (fun f => decide (f.kind = FindingKind.ALLERGEN))).length
    dietaryCount := (findings.filter (fun f => decide (f.kind = FindingKind.DIETARY))).length
    keywordCount :=
      (findings.filter (fun f => decide (f.kind = FindingKind.FORBIDDEN_KEYWORD))).length }

/-- evaluateLabelForProfiles from policyEngine.ts. -/
def evaluateLabelForProfiles (parsedLabel : ParsedLabel)
    (profiles : List UserProfile) : List PolicyResult :=
  profiles.map (evaluateLabel parsedLabel)

/-! ## inference escalation service -/

/-- The very-bad-allergy allowlist. -/
def VERY_BAD_ALLERGIES : List Str :=
  [str "peanuts", str "tree nuts", str "shellfish", str "fish", str "milk",
   str "eggs", str "wheat", str "soy", str "sesame"]

/-- An escalated inferred risk entry. -/
structure InferredRisk where
  name : Str
  escalatedFromInferred : Bool
deriving DecidableEq, Repr

/-- One per-profile analysis result consumed by the escalation service. -/
structure ProfileResult where
  profileId : Str
  name : Str
  safe : Bool
  status : Str
  reasons : List Str
  matchedAllergens : List Str
  matchedKeywords : List Str
  matchedPreferences : List Str
deriving DecidableEq, Repr

/-- isVeryBadAllergy from the escalation service: case-insensitive
substring match in either direction against the allowlist. -/
def isVeryBadAllergy (inferredRisk : Str) : Bool :=
  VERY_BAD_ALLERGIES.any (fun allergy =>
    includes (lowerStr inferredRisk) allergy || includes allergy (lowerStr inferredRisk))

/-- escalateInferredRisks from the escalation service. The source computes
the partition of the inferred risks once per profile result inside the map;
the partition does not depend on the result, so it is hoisted here and the
escalated-items list repeats it once per profile result exactly as the
source pushes it. -/
def escalateInferredRisks (results : List ProfileResult) (inferredRisks : List Str) :
    List ProfileResult × List InferredRisk :=
  let escalatedAllergens := inferredRisks.filter isVeryBadAllergy
  let updatedResults := results.map (fun result =>
    if escalatedAllergens = [] then result
    else
      { result with
        matchedAllergens := result.matchedAllergens ++ escalatedAllergens
        status := str "unsafe"
        safe := false
        reasons := result.reasons ++ escalatedAllergens.map (fun a =>
          str "Inferred risk escalated: may contain " ++ a) })
  let escalatedItems := (results.map (fun _ =>
    escalatedAllergens.map (fun a =>
      ({ name := a, escalatedFromInferred := true } : InferredRisk)))).flatten
  (updatedResults, escalatedItems)

/-! ## Concrete claim inputs and spec-side characterizations -/

/-- The raw text of the end-to-end scenario. -/
def c1Text : Str :=
  str "Ingredients: wheat flour, sugar, milk, soy lecithin. Contains: wheat, milk, soy."

/-- The profile of the end-to-end scenario: allergic to exactly Milk and Wheat. -/
def c1Profile : UserProfile :=
  { id := str "profile-1"
    name := str "Profile One"
    allergies := [str "Milk", str "Wheat"]
    customAllergies := []
    preferences := []
    customPreferences := []
    forbiddenKeywords := []
    treatMayContainAsUnsafe := false }

/-- The engine output of the end-to-end scenario. -/
def c1Result : PolicyResult := evaluateLabel (parseIngredientLabel c1Text) c1Profile

/-- An input on which the contains-section offsets come out reversed. -/
def c3Text : Str := str "may contain: milk. contains: wheat"

/-- The parse of the empty input. -/
def emptyLabel : ParsedLabel := parseIngredientLabel (str "")

/-- A label holding both false-positive tokens. -/
def c4Label : ParsedLabel :=
  parseIngredientLabel (str "Ingredients: peanut butter, sunflower lecithin, salt.")

/-- A profile allergic to Milk and Soy for the false-positive scenario. -/
def c4Profile : UserProfile :=
  { id := str "profile-4"
    name := str "Profile Four"
    allergies := [str "Milk", str "Soy"]
    customAllergies := []
    preferences := []
    customPreferences := []
    forbiddenKeywords := []
    treatMayContainAsUnsafe := false }

/-- First manual-review attempt from a fresh session. -/
def mrr1 : SessionOut := updateSessionAttemptCounters ⟨some 0, some 0, some false⟩ true

/-- Second consecutive manual-review attempt. -/
def mrr2 : SessionOut := updateSessionAttemptCounters (sessionOutToIn mrr1) true

/-- Third consecutive manual-review attempt. -/
def mrr3 : SessionOut := updateSessionAttemptCounters (sessionOutToIn mrr2) true

/-- Fourth consecutive manual-review attempt. -/
def mrr4 : SessionOut := updateSessionAttemptCounters (sessionOutToIn mrr3) true

/-- A non-manual-review attempt after the streak. -/
def nonMrr5 : SessionOut := updateSessionAttemptCounters (sessionOutToIn mrr4) false

/-- Word-boundary occurrence predicate characterizing evidence spans the
way the spec states them: the term occurs here in the lowercased text and
each neighboring character, with string boundaries standing in as a space,
lies in the corresponding whitespace-or-punctuation class. -/
def isWordOccurrenceAt (rawText searchTerm : Str) (i : Nat) : Bool :=
  occursAt (lowerStr rawText) (lowerStr searchTerm) i &&
  isBoundaryBeforeChar
    (if 0 < i then ((lowerStr rawText).drop (i - 1)).headD ' ' else ' ') &&
  isBoundaryAfterChar
    (if i + searchTerm.length < rawText.length then
      ((lowerStr rawText).drop (i + searchTerm.length)).headD ' '
    else ' ')

/-- Spec-side false-positive safety of a single finding: the token peanut
butter never carries canonical term Milk and the token sunflower lecithin
never carries canonical term Soy. -/
def fpSafe (f : Finding) : Prop :=
  (f.matchedText = str "peanut butter" → f.canonicalTerm ≠ str "Milk") ∧
  (f.matchedText = str "sunflower lecithin" → f.canonicalTerm ≠ str "Soy")

/-! ## Helper lemmas -/

/-- A fold whose step never changes the accumulator is the accumulator. -/
theorem foldl_fixed {α β : Type} (f : β → α → β) (h : ∀ acc x, f acc x = acc) :
    ∀ (l : List α) (acc : β), l.foldl f acc = acc := by
  intro l
  induction l with
  | nil => intro acc; rfl
  | cons x xs ih => intro acc; rw [List.foldl_cons, h, ih]

/-- Nothing occurs inside the empty string. -/
theorem includes_nil_eq_false (kw : Str) (h : kw ≠ []) : includes [] kw = false := by
  cases kw with
  | nil => exact absurd rfl h
  | cons c cs => rfl

/-! ## Claim theorems -/

/-- C6: the fingerprint computation at the failing input: with confirmed
name Grilled Chicken! the code returns fp:grilled chicken with an inner
space rather than the hyphenated slug the spec and the repository's own
unit tests expect, because normalizeTokens receives the whole name as a
single token and joining a one-element list inserts no separator; the
null-input and confirmed-over-guessed parts of the claim do hold. -/
theorem computeItemFingerprint_space_divergence :
    computeItemFingerprint (some (str "Grilled Chicken!")) none =
      some (str "fp:grilled chicken") ∧
    some (str "fp:grilled chicken") ≠ some (str "fp:grilled-chicken") ∧
    computeItemFingerprint none none = none ∧
    computeItemFingerprint (some (str "Grilled Chicken!")) (some (str "chicken dish")) =
      computeItemFingerprint (some (str "Grilled Chicken!")) none := by
  decide

/-- C3: code-bug evaluation: on the text may contain: milk. contains: wheat
the detected contains section stores offsets start 29 and end 13, so the
invariant start ≤ end fails, while both offsets stay within the normalized
length 34; the may-contain section was detected earlier in the text and its
start is used as the contains end. -/
theorem detectSections_offsets_order_bug :
    (parseIngredientLabel c3Text).sections.contains = some ⟨29, 13⟩ ∧
    ¬(29 ≤ 13) ∧
    (parseIngredientLabel c3Text).normalizedText.length = 34 ∧
    (parseIngredientLabel c3Text).sections.mayContain = some ⟨13, 17⟩ := by
  decide

/-- C1 counterexample: on the end-to-end scenario no finding carries the
contains source at all — the contains-statement findings for Milk and Wheat
are suppressed because ingredient-level findings for the same canonical
allergens already exist — so the claim as stated fails. -/
theorem evaluateLabel_endToEnd_counterexample :
    ¬(c1Result.status = PolicyStatus.UNSAFE ∧
      2 ≤ c1Result.allergenCount ∧
      (∃ f ∈ c1Result.findings, f.canonicalTerm = str "Milk" ∧
        f.source = FindingSource.containsSection ∧ f.confidence = 1) ∧
      (∃ f ∈ c1Result.findings, f.canonicalTerm = str "Wheat" ∧
        f.source = FindingSource.containsSection ∧ f.confidence = 1)) := by
  decide

/-- C1 amended: the end-to-end scenario yields status UNSAFE with allergen
count at least 2, and findings for canonical terms Milk and Wheat exist but
with source ingredients; no finding has the contains source. -/
theorem evaluateLabel_endToEnd_amended :
    c1Result.status = PolicyStatus.UNSAFE ∧
    2 ≤ c1Result.allergenCount ∧
    (∃ f ∈ c1Result.findings, f.canonicalTerm = str "Milk" ∧
      f.kind = FindingKind.ALLERGEN ∧ f.source = FindingSource.ingredients) ∧
    (∃ f ∈ c1Result.findings, f.canonicalTerm = str "Wheat" ∧
      f.kind = FindingKind.ALLERGEN ∧ f.source = FindingSource.ingredients) ∧
    (∀ f ∈ c1Result.findings, f.source ≠ FindingSource.containsSection) := by
  decide

/-- C7: the session-counter transition increments the attempt count, counts
or resets consecutive manual reviews, raises the escalation flag exactly on
reaching three unseen consecutive manual reviews, and latches the shown
flag; the concrete three-in-a-row scenario behaves as the claim lists. -/
theorem updateSessionAttemptCounters_spec (s : SessionIn) (isMRR : Bool) :
    (updateSessionAttemptCounters s isMRR).attemptCount = s.attemptCount.getD 0 + 1 ∧
    (updateSessionAttemptCounters s isMRR).manualReviewCount =
      (if isMRR then s.manualReviewCount.getD 0 + 1 else 0) ∧
    ((updateSessionAttemptCounters s isMRR).shouldShowEscalation = true ↔
      (s.escalationShown.getD false = false ∧
        3 ≤ (updateSessionAttemptCounters s isMRR).manualReviewCount)) ∧
    (updateSessionAttemptCounters s isMRR).escalationShown =
      (s.escalationShown.getD false ||
        (updateSessionAttemptCounters s isMRR).shouldShowEscalation) ∧
    (mrr1.shouldShowEscalation = false ∧ mrr1.manualReviewCount = 1) ∧
    (mrr2.shouldShowEscalation = false ∧ mrr2.manualReviewCount = 2) ∧
    (mrr3.shouldShowEscalation = true ∧ mrr3.manualReviewCount = 3) ∧
    (mrr4.shouldShowEscalation = false ∧ mrr4.manualReviewCount = 4) ∧
    (nonMrr5.manualReviewCount = 0 ∧ nonMrr5.escalationShown = true ∧
      nonMrr5.attemptCount = 5) := by
  refine ⟨rfl, rfl, ?_, rfl, by decide, by decide, by decide, by decide, by decide⟩
  unfold updateSessionAttemptCounters
  cases h : s.escalationShown.getD false <;> simp [h]

/-- C7 witness: the transition applied at a concrete state one step short
of escalation. -/
theorem updateSessionAttemptCounters_spec_witness :
    (updateSessionAttemptCounters ⟨some 4, some 2, some false⟩ true).shouldShowEscalation
      = true :=
  (updateSessionAttemptCounters_spec ⟨some 4, some 2, some false⟩ true).2.2.1.mpr
    ⟨by decide, by decide⟩

/-- C8: parsing the empty input yields empty ingredients, contains and
may-contain lists, and evaluating that parse for every profile yields
status SAFE with confidence 1 and no findings; the embedded pipeline is
total, so no input can raise an exception. -/
theorem parseIngredientLabel_empty_spec :
    emptyLabel.ingredients = [] ∧
    emptyLabel.containsStatements = [] ∧
    emptyLabel.mayContainStatements = [] ∧
    ∀ profile : UserProfile,
      (evaluateLabel emptyLabel profile).status = PolicyStatus.SAFE ∧
      (evaluateLabel emptyLabel profile).confidence = 1 ∧
      (evaluateLabel emptyLabel profile).findings = [] := by
  have he : emptyLabel = ⟨[], [], [], [], [], ⟨none, none, none⟩⟩ := by decide
  refine ⟨by decide, by decide, by decide, ?_⟩
  intro profile
  rw [he]
  have hA : checkAllergens ⟨[], [], [], [], [], ⟨none, none, none⟩⟩ profile [] = [] := by
    unfold checkAllergens
    simp only [List.foldl_nil]
    by_cases h : profile.allergies ++ profile.customAllergies = [] <;>
      simp [h, deduplicateFindings, dedupGo]
  have hDstep : ∀ (acc : List Finding) (prefKey : Str),
      dietaryPrefStep ⟨[], [], [], [], [], ⟨none, none, none⟩⟩ [] acc prefKey = acc := by
    intro acc prefKey
    unfold dietaryPrefStep
    cases hfind : DIETARY_RULES.find? (fun e => e.1 = prefKey) <;> rfl
  have hD : checkDietaryPreferences ⟨[], [], [], [], [], ⟨none, none, none⟩⟩ profile [] = [] := by
    by_cases h : profile.preferences ++ profile.customPreferences = [] <;>
      simp [checkDietaryPreferences, h, foldl_fixed _ hDstep, deduplicateFindings, dedupGo]
  have hKstep : ∀ (acc : List Finding) (keyword : Str),
      keywordStep ⟨[], [], [], [], [], ⟨none, none, none⟩⟩ [] acc keyword = acc := by
    intro acc keyword
    unfold keywordStep
    by_cases h : jsTrim (lowerStr keyword) = []
    · simp [h]
    · have hls : lowerStr ([] : Str) = [] := rfl
      simp [h, hls, includes_nil_eq_false _ h]
  have hK : checkForbiddenKeywords ⟨[], [], [], [], [], ⟨none, none, none⟩⟩ profile [] = [] := by
    by_cases h : profile.forbiddenKeywords = [] <;>
      simp [checkForbiddenKeywords, h, foldl_fixed _ hKstep, deduplicateFindings, dedupGo]
  unfold evaluateLabel
  simp [hA, hD, hK]

/-- C8 witness: the safe empty evaluation at a concrete profile with
allergies, preferences and keywords set. -/
theorem parseIngredientLabel_empty_spec_witness :
    (evaluateLabel emptyLabel
      { id := str "w"
        name := str "W"
        allergies := [str "Milk"]
        customAllergies := [str "kiwi"]
        preferences := [str "Vegan"]
        customPreferences := []
        forbiddenKeywords := [str "msg"]
        treatMayContainAsUnsafe := true }).status = PolicyStatus.SAFE := by
  exact (parseIngredientLabel_empty_spec.2.2.2 _).1

/-- The quick-scan fold is the filter of matching allergens in input order. -/
theorem quickScanStep_foldl (lower : Str) :
    ∀ (l : List Str) (acc : List AllergenMatch),
      l.foldl (quickScanStep lower) acc =
        acc ++ (l.filter (fun a => includes lower (lowerStr a))).map
          (fun a => { allergenId := a, severity := 9/10, matches' := [a] }) := by
  intro l
  induction l with
  | nil => intro acc; simp
  | cons x xs ih =>
      intro acc
      rw [List.foldl_cons]
      by_cases h : includes lower (lowerStr x) <;>
        simp [quickScanStep, h, ih, List.filter_cons]

/-- C10: the quick heuristic scan reports exactly the user allergens whose
lowercased form occurs in the lowercased text, in input order, each with
severity 0.9 and a singleton match list; overall confidence is 0.85 when
any matched and 0.5 otherwise, and no dietary flags are produced. -/
theorem quickHeuristicScan_spec (text : Str) (userAllergens : List Str) :
    (quickHeuristicScan text userAllergens).allergensDetected =
      (userAllergens.filter (fun a => includes (lowerStr text) (lowerStr a))).map
        (fun a => { allergenId := a, severity := 9/10, matches' := [a] }) ∧
    (quickHeuristicScan text userAllergens).confidence =
      (if userAllergens.any (fun a => includes (lowerStr text) (lowerStr a)) then 17/20
       else 1/2) ∧
    (quickHeuristicScan text userAllergens).dietaryFlags = [] := by
  refine ⟨?_, ?_, rfl⟩
  · simp [quickHeuristicScan, quickScanStep_foldl]
  · simp only [quickHeuristicScan, quickScanStep_foldl, List.nil_append]
    by_cases h : userAllergens.any (fun a => includes (lowerStr text) (lowerStr a))
    · rw [if_pos h, if_pos]
      rw [List.any_eq_true] at h
      obtain ⟨a, ha, hpa⟩ := h
      intro hnil
      rw [List.map_eq_nil_iff, List.filter_eq_nil_iff] at hnil
      exact hnil a ha hpa
    · rw [if_neg h, if_neg]
      intro hne
      apply hne
      rw [List.map_eq_nil_iff, List.filter_eq_nil_iff]
      intro a ha hpa
      exact h (List.any_eq_true.mpr ⟨a, ha, hpa⟩)

/-- C10 witness: the quick scan at a concrete text and allergen list. -/
theorem quickHeuristicScan_spec_witness :
    (quickHeuristicScan (str "contains milk and honey") [str "Milk", str "Soy"]).allergensDetected
      = [{ allergenId := str "Milk", severity := 9/10, matches' := [str "Milk"] }] ∧
    (quickHeuristicScan (str "contains milk and honey") [str "Milk", str "Soy"]).confidence
      = 17/20 := by
  have h := quickHeuristicScan_spec (str "contains milk and honey") [str "Milk", str "Soy"]
  exact ⟨h.1.trans rfl, h.2.1.trans rfl⟩

/-- C9: escalation of inferred risks: when no inferred risk matches the
very-bad allowlist every result is returned unchanged and nothing is
escalated; when at least one matches, every result is forced to unsafe with
the matching risks appended to its matched allergens, and each matching
risk is reported as an escalated item with the escalated-from-inferred flag
set whenever at least one profile result exists. -/
theorem escalateInferredRisks_spec (results : List ProfileResult) (inferredRisks : List Str) :
    (inferredRisks.filter isVeryBadAllergy = [] →
      (escalateInferredRisks results inferredRisks).1 = results ∧
      (escalateInferredRisks results inferredRisks).2 = []) ∧
    (inferredRisks.filter isVeryBadAllergy ≠ [] →
      (escalateInferredRisks results inferredRisks).1 = results.map (fun r =>
        { r with
          matchedAllergens := r.matchedAllergens ++ inferredRisks.filter isVeryBadAllergy
          status := str "unsafe"
          safe := false
          reasons := r.reasons ++ (inferredRisks.filter isVeryBadAllergy).map (fun a =>
            str "Inferred risk escalated: may contain " ++ a) })) ∧
    (results ≠ [] → ∀ m ∈ inferredRisks, isVeryBadAllergy m = true →
      ({ name := m, escalatedFromInferred := true } : InferredRisk) ∈
        (escalateInferredRisks results inferredRisks).2) := by
  refine ⟨?_, ?_, ?_⟩
  · intro h
    constructor
    · simp [escalateInferredRisks, h]
    · simp [escalateInferredRisks, h]
  · intro h
    simp [escalateInferredRisks, h]
  · intro hres m hm hvb
    have hmf : m ∈ inferredRisks.filter isVeryBadAllergy := List.mem_filter.mpr ⟨hm, hvb⟩
    obtain ⟨r, hr⟩ := List.exists_mem_of_ne_nil results hres
    simp only [escalateInferredRisks, List.mem_flatten]
    refine ⟨(inferredRisks.filter isVeryBadAllergy).map (fun a =>
      ({ name := a, escalatedFromInferred := true } : InferredRisk)), ?_, ?_⟩
    · exact List.mem_map.mpr ⟨r, hr, rfl⟩
    · exact List.mem_map.mpr ⟨m, hmf, rfl⟩

/-- A prefix is no longer than the list it heads. -/
theorem isPrefixOf_length_le : ∀ (a b : Str), a.isPrefixOf b = true → a.length ≤ b.length := by
  intro a
  induction a with
  | nil => intro b _; exact Nat.zero_le _
  | cons x xs ih =>
      intro b h
      cases b with
      | nil => simp [List.isPrefixOf] at h
      | cons y ys =>
          simp only [List.isPrefixOf, Bool.and_eq_true] at h
          have := ih ys h.2
          simp only [List.length_cons]
          omega

/-- A non-empty term occurring at i forces i below the text length. -/
theorem occursAt_true_lt (text term : Str) (i : Nat) (hterm : term ≠ [])
    (h : occursAt text term i = true) : i < text.length := by
  have hle := isPrefixOf_length_le term (text.drop i) h
  rw [List.length_drop] at hle
  cases term with
  | nil => exact absurd rfl hterm
  | cons c cs => simp only [List.length_cons] at hle; omega

/-- When the index scan fails, no occurrence lies in the scanned range. -/
theorem indexOfGo_none_spec (text term : Str) :
    ∀ (fuel i : Nat), text.length + 1 ≤ fuel + i →
      indexOfGo text term fuel i = none →
      ∀ j, i ≤ j → j ≤ text.length → occursAt text term j = false := by
  intro fuel
  induction fuel with
  | zero =>
      intro i hf _ j hij hj
      omega
  | succ fuel ih =>
      intro i hf hnone j hij hj
      simp only [indexOfGo] at hnone
      by_cases hlt : text.length < i
      · omega
      · rw [if_neg hlt] at hnone
        by_cases hocc : occursAt text term i = true
        · rw [if_pos hocc] at hnone
          exact Option.noConfusion hnone
        · rw [if_neg hocc] at hnone
          rcases Nat.lt_or_ge i j with hlt2 | hge
          · exact ih (i + 1) (by omega) hnone j (by omega) hj
          · have hji : j = i := by omega
            subst hji
            rw [Bool.not_eq_true] at hocc
            exact hocc

/-- When the index scan succeeds it returns the least occurrence at or
after the start. -/
theorem indexOfGo_some_spec (text term : Str) :
    ∀ (fuel i idx : Nat), indexOfGo text term fuel i = some idx →
      i ≤ idx ∧ idx ≤ text.length ∧ occursAt text term idx = true ∧
        ∀ j, i ≤ j → j < idx → occursAt text term j = false := by
  intro fuel
  induction fuel with
  | zero => intro i idx h; exact Option.noConfusion h
  | succ fuel ih =>
      intro i idx h
      simp only [indexOfGo] at h
      by_cases hlt : text.length < i
      · rw [if_pos hlt] at h
        exact Option.noConfusion h
      · rw [if_neg hlt] at h
        by_cases hocc : occursAt text term i = true
        · rw [if_pos hocc] at h
          have hidx : i = idx := Option.some.inj h
          subst hidx
          refine ⟨le_refl _, by omega, hocc, ?_⟩
          intro j h1 h2
          omega
        · rw [if_neg hocc] at h
          obtain ⟨h1, h2, h3, h4⟩ := ih (i + 1) idx h
          refine ⟨by omega, h2, h3, ?_⟩
          intro j hj1 hj2
          rcases Nat.lt_or_ge j (i + 1) with hl | hg
          · have hji : j = i := by omega
            subst hji
            rw [Bool.not_eq_true] at hocc
            exact hocc
          · exact h4 j hg hj2

/-- indexOfFrom failure means no occurrence at or after the position. -/
theorem indexOfFrom_none_spec (text term : Str) (pos : Nat)
    (h : indexOfFrom text term pos = none) :
    ∀ j, pos ≤ j → j ≤ text.length → occursAt text term j = false :=
  indexOfGo_none_spec text term (text.length + 1 - pos) pos (by omega) h

/-- indexOfFrom success returns the least occurrence at or after the
position. -/
theorem indexOfFrom_some_spec (text term : Str) (pos idx : Nat)
    (h : indexOfFrom text term pos = some idx) :
    pos ≤ idx ∧ idx ≤ text.length ∧ occursAt text term idx = true ∧
      ∀ j, pos ≤ j → j < idx → occursAt text term j = false :=
  indexOfGo_some_spec text term (text.length + 1 - pos) pos idx h

/-- The evidence-span loop enumerates, in order, exactly the occurrence
positions whose neighbors lie in the boundary classes. -/
theorem findSpansGo_eq_filter (lt lterm : Str) (hterm : lterm ≠ []) :
    ∀ (fuel pos : Nat), lt.length + 1 ≤ fuel + pos →
      findSpansGo lt lterm fuel pos =
        ((List.range' pos (lt.length - pos)).filter (fun i =>
          occursAt lt lterm i &&
          isBoundaryBeforeChar (if 0 < i then (lt.drop (i - 1)).headD ' ' else ' ') &&
          isBoundaryAfterChar
            (if i + lterm.length < lt.length then (lt.drop (i + lterm.length)).headD ' '
             else ' '))).map (fun i => (⟨i, i + lterm.length⟩ : Span)) := by
  intro fuel
  induction fuel with
  | zero =>
      intro pos hf
      have h0 : lt.length - pos = 0 := by omega
      rw [h0]
      simp [findSpansGo]
  | succ fuel ih =>
      intro pos hf
      simp only [findSpansGo]
      by_cases hpos : pos < lt.length
      · rw [if_pos hpos]
        cases hidx : indexOfFrom lt lterm pos with
        | none =>
            have hnone := indexOfFrom_none_spec lt lterm pos hidx
            symm
            rw [List.map_eq_nil_iff, List.filter_eq_nil_iff]
            intro i hi
            rw [List.mem_range'_1] at hi
            have hocc : occursAt lt lterm i = false := hnone i hi.1 (by omega)
            simp [hocc]
        | some idx =>
            obtain ⟨hpi, hil, hocc, hmin⟩ := indexOfFrom_some_spec lt lterm pos idx hidx
            have hidxlt : idx < lt.length := occursAt_true_lt lt lterm idx hterm hocc
            have hd1 : pos + (idx - pos) = idx := by omega
            have hd2 : (lt.length - idx) + (idx - pos) = lt.length - pos := by omega
            have hdecomp : List.range' pos (lt.length - pos) =
                List.range' pos (idx - pos) ++ List.range' idx (lt.length - idx) := by
              calc List.range' pos (lt.length - pos)
                  = List.range' pos ((lt.length - idx) + (idx - pos)) := by rw [hd2]
                _ = List.range' pos (idx - pos) ++
                      List.range' (pos + (idx - pos)) (lt.length - idx) :=
                    (List.range'_append_1 pos (idx - pos) (lt.length - idx)).symm
                _ = List.range' pos (idx - pos) ++ List.range' idx (lt.length - idx) := by
                    rw [hd1]
            rw [hdecomp, List.filter_append, List.map_append]
            have hempty : (List.range' pos (idx - pos)).filter (fun i =>
                occursAt lt lterm i &&
                isBoundaryBeforeChar (if 0 < i then (lt.drop (i - 1)).headD ' ' else ' ') &&
                isBoundaryAfterChar
                  (if i + lterm.length < lt.length then (lt.drop (i + lterm.length)).headD ' '
                   else ' ')) = [] := by
              rw [List.filter_eq_nil_iff]
              intro i hi
              rw [List.mem_range'_1] at hi
              have hocc0 : occursAt lt lterm i = false := hmin i hi.1 (by omega)
              simp [hocc0]
            rw [hempty, List.map_nil, List.nil_append]
            have hsucc : lt.length - idx = (lt.length - (idx + 1)) + 1 := by omega
            rw [hsucc, List.range'_succ, List.filter_cons]
            have hrest := ih (idx + 1) (by omega)
            simp only [hocc, hrest, Bool.true_and, Bool.and_eq_true, decide_eq_true_eq]
            split_ifs <;> simp
      · rw [if_neg hpos]
        have h0 : lt.length - pos = 0 := by omega
        rw [h0]
        simp

/-- The evidence-span function equals the spec-side word-occurrence filter. -/
theorem findEvidenceSpans_eq_filter (rawText searchTerm : Str) (h : searchTerm ≠ []) :
    findEvidenceSpans rawText searchTerm =
      ((List.range rawText.length).filter (isWordOccurrenceAt rawText searchTerm)).map
        (fun i => (⟨i, i + searchTerm.length⟩ : Span)) := by
  have hterm : lowerStr searchTerm ≠ [] := by
    cases searchTerm with
    | nil => exact absurd rfl h
    | cons c cs => simp [lowerStr]
  have hlen : (lowerStr rawText).length = rawText.length := List.length_map _ _
  have hlent : (lowerStr searchTerm).length = searchTerm.length := List.length_map _ _
  have hmain := findSpansGo_eq_filter (lowerStr rawText) (lowerStr searchTerm) hterm
    (rawText.length + 1) 0 (by rw [hlen])
  unfold findEvidenceSpans
  rw [hmain]
  simp only [hlen, hlent, Nat.sub_zero, ← List.range_eq_range']
  rfl

/-- C5: the evidence spans are exactly the word-bounded occurrences of the
search term in left-to-right order; in particular salt never matches inside
saltpeter and matches exactly once at offsets 4 to 8 in sea salt, pepper. -/
theorem findEvidenceSpans_spec :
    (∀ rawText searchTerm : Str, searchTerm ≠ [] →
      findEvidenceSpans rawText searchTerm =
        ((List.range rawText.length).filter (isWordOccurrenceAt rawText searchTerm)).map
          (fun i => (⟨i, i + searchTerm.length⟩ : Span))) ∧
    findEvidenceSpans (str "saltpeter crystals") (str "salt") = [] ∧
    findEvidenceSpans (str "sea salt, pepper") (str "salt") = [⟨4, 8⟩] :=
  ⟨findEvidenceSpans_eq_filter, by decide, by decide⟩

/-- C5 witness: the characterization applied at the concrete sea salt
input, with the non-emptiness hypothesis discharged by computation. -/
theorem findEvidenceSpans_spec_witness :
    str "salt" ≠ [] ∧
    findEvidenceSpans (str "sea salt, pepper") (str "salt") =
      ((List.range (str "sea salt, pepper").length).filter
        (isWordOccurrenceAt (str "sea salt, pepper") (str "salt"))).map
        (fun i => (⟨i, i + (str "salt").length⟩ : Span)) :=
  ⟨by decide, findEvidenceSpans_spec.1 _ _ (by decide)⟩

/-- A min-fold is bounded by its initial value. -/
theorem foldl_min_le_init : ∀ (l : List ℚ) (c : ℚ), l.foldl min c ≤ c := by
  intro l
  induction l with
  | nil => intro c; exact le_refl c
  | cons x xs ih =>
      intro c
      calc xs.foldl min (min c x) ≤ min c x := ih (min c x)
        _ ≤ c := min_le_left c x

/-- A min-fold is bounded by every list element. -/
theorem foldl_min_le_mem : ∀ (l : List ℚ) (c x : ℚ), x ∈ l → l.foldl min c ≤ x := by
  intro l
  induction l with
  | nil => intro c x hx; exact absurd hx (List.not_mem_nil x)
  | cons y ys ih =>
      intro c x hx
      rcases List.mem_cons.mp hx with h | h
      · subst h
        calc ys.foldl min (min c x) ≤ min c x := foldl_min_le_init ys (min c x)
          _ ≤ x := min_le_right c x
      · exact ih (min c y) x h

/-- A min-fold equals its initial value or some list element. -/
theorem foldl_min_eq_init_or_mem :
    ∀ (l : List ℚ) (c : ℚ), l.foldl min c = c ∨ l.foldl min c ∈ l := by
  intro l
  induction l with
  | nil => intro c; exact Or.inl rfl
  | cons y ys ih =>
      intro c
      rcases ih (min c y) with h | h
      · rcases min_choice c y with hm | hm
        · exact Or.inl (by rw [List.foldl_cons, h, hm])
        · exact Or.inr (by rw [List.foldl_cons, h, hm]; exact List.mem_cons_self y ys)
      · exact Or.inr (List.mem_cons_of_mem y h)

/-- C2: the aggregation of evaluateLabel: status is UNSAFE exactly when an
unsafe finding exists, CAUTION exactly when no unsafe but some caution
finding exists, SAFE exactly when neither exists; and the reported
confidence is 1 on an empty findings list and otherwise the minimum of the
finding confidences, attained on the list. -/
theorem evaluateLabel_aggregation (parsedLabel : ParsedLabel) (profile : UserProfile) :
    ((evaluateLabel parsedLabel profile).status = PolicyStatus.UNSAFE ↔
      ∃ f ∈ (evaluateLabel parsedLabel profile).findings,
        f.severity = FindingSeverity.UNSAFE) ∧
    ((evaluateLabel parsedLabel profile).status = PolicyStatus.CAUTION ↔
      ((¬ ∃ f ∈ (evaluateLabel parsedLabel profile).findings,
          f.severity = FindingSeverity.UNSAFE) ∧
        ∃ f ∈ (evaluateLabel parsedLabel profile).findings,
          f.severity = FindingSeverity.CAUTION)) ∧
    ((evaluateLabel parsedLabel profile).status = PolicyStatus.SAFE ↔
      ((¬ ∃ f ∈ (evaluateLabel parsedLabel profile).findings,
          f.severity = FindingSeverity.UNSAFE) ∧
        ¬ ∃ f ∈ (evaluateLabel parsedLabel profile).findings,
          f.severity = FindingSeverity.CAUTION)) ∧
    ((evaluateLabel parsedLabel profile).findings = [] →
      (evaluateLabel parsedLabel profile).confidence = 1) ∧
    ((evaluateLabel parsedLabel profile).findings ≠ [] →
      (∀ f ∈ (evaluateLabel parsedLabel profile).findings,
        (evaluateLabel parsedLabel profile).confidence ≤ f.confidence) ∧
      ∃ f ∈ (evaluateLabel parsedLabel profile).findings,
        (evaluateLabel parsedLabel profile).confidence = f.confidence) := by
  have hstat : (evaluateLabel parsedLabel profile).status =
      (if (evaluateLabel parsedLabel profile).findings.any
          (fun f => decide (f.severity = FindingSeverity.UNSAFE)) then PolicyStatus.UNSAFE
       else if (evaluateLabel parsedLabel profile).findings.any
          (fun f => decide (f.severity = FindingSeverity.CAUTION)) then PolicyStatus.CAUTION
       else PolicyStatus.SAFE) := rfl
  have hconf : (evaluateLabel parsedLabel profile).confidence =
      (match (evaluateLabel parsedLabel profile).findings.map (fun f => f.confidence) with
       | [] => 1
       | c :: cs => cs.foldl min c) := rfl
  rw [hstat, hconf]
  generalize (evaluateLabel parsedLabel profile).findings = F
  simp only [List.any_eq_true, decide_eq_true_eq]
  refine ⟨?_, ?_, ?_, ?_, ?_⟩
  · by_cases h1 : ∃ f ∈ F, f.severity = FindingSeverity.UNSAFE
    · simp [h1]
    · by_cases h2 : ∃ f ∈ F, f.severity = FindingSeverity.CAUTION <;> simp [h1, h2]
  · by_cases h1 : ∃ f ∈ F, f.severity = FindingSeverity.UNSAFE
    · simp [h1]
    · by_cases h2 : ∃ f ∈ F, f.severity = FindingSeverity.CAUTION <;> simp [h1, h2]
  · by_cases h1 : ∃ f ∈ F, f.severity = FindingSeverity.UNSAFE
    · simp [h1]
    · by_cases h2 : ∃ f ∈ F, f.severity = FindingSeverity.CAUTION <;> simp [h1, h2]
  · intro h
    subst h
    rfl
  · intro h
    match F, h with
    | f0 :: fs, _ =>
        simp only [List.map_cons]
        constructor
        · intro f hf
          rcases List.mem_cons.mp hf with hh | hh
          · subst hh
            exact foldl_min_le_init _ _
          · exact foldl_min_le_mem _ _ _ (List.mem_map_of_mem (fun f => f.confidence) hh)
        · rcases foldl_min_eq_init_or_mem (fs.map (fun f => f.confidence)) f0.confidence with
            hh | hh
          · exact ⟨f0, List.mem_cons_self f0 fs, hh⟩
          · obtain ⟨f, hfmem, hfc⟩ := List.mem_map.mp hh
            exact ⟨f, List.mem_cons_of_mem f0 hfmem, by rw [← hfc]⟩

/-- C2 witness: the aggregation facts applied at the end-to-end scenario. -/
theorem evaluateLabel_aggregation_witness :
    (evaluateLabel (parseIngredientLabel c1Text) c1Profile).findings ≠ [] ∧
    (∀ f ∈ (evaluateLabel (parseIngredientLabel c1Text) c1Profile).findings,
      (evaluateLabel (parseIngredientLabel c1Text) c1Profile).confidence ≤ f.confidence) := by
  have h := evaluateLabel_aggregation (parseIngredientLabel c1Text) c1Profile
  exact ⟨by decide, (h.2.2.2.2 (by decide)).1⟩

/-- C9 witness: a concrete escalation with one matching and one
non-matching inferred risk over one profile result. -/
theorem escalateInferredRisks_spec_witness :
    (escalateInferredRisks
        [{ profileId := str "a", name := str "A", safe := true, status := str "safe",
           reasons := [], matchedAllergens := [], matchedKeywords := [],
           matchedPreferences := [] }]
        [str "Milk solids", str "basil"]).1 =
      [{ profileId := str "a", name := str "A", safe := false, status := str "unsafe",
         reasons := [str "Inferred risk escalated: may contain Milk solids"],
         matchedAllergens := [str "Milk solids"], matchedKeywords := [],
         matchedPreferences := [] }] := by
  have h := (escalateInferredRisks_spec
    [{ profileId := str "a", name := str "A", safe := true, status := str "safe",
       reasons := [], matchedAllergens := [], matchedKeywords := [],
       matchedPreferences := [] }]
    [str "Milk solids", str "basil"]).2.1 (by decide)
  exact h.trans (by decide)

/-- A fold whose step preserves a property of all accumulated findings
preserves it on the final result. -/
theorem foldl_preserves {α β : Type} (P : β → Prop) (step : List β → α → List β)
    (h : ∀ acc x, (∀ f ∈ acc, P f) → ∀ f ∈ step acc x, P f) :
    ∀ (l : List α) (acc : List β), (∀ f ∈ acc, P f) → ∀ f ∈ l.foldl step acc, P f := by
  intro l
  induction l with
  | nil => intro acc hacc; simpa using hacc
  | cons x xs ih =>
      intro acc hacc
      rw [List.foldl_cons]
      exact ih (step acc x) (h acc x hacc)

/-- Deduplication only removes findings. -/
theorem dedupGo_subset :
    ∀ (l : List Finding) (seen : List (FindingKind × Str × Str)) (f : Finding),
      f ∈ dedupGo seen l → f ∈ l := by
  intro l
  induction l with
  | nil => intro seen f hf; simp [dedupGo] at hf
  | cons g gs ih =>
      intro seen f hf
      simp only [dedupGo] at hf
      by_cases hk : (g.kind, g.canonicalTerm, g.matchedText) ∈ seen
      · rw [if_pos hk] at hf
        exact List.mem_cons_of_mem g (ih _ f hf)
      · rw [if_neg hk] at hf
        rcases List.mem_cons.mp hf with h | h
        · exact h ▸ List.mem_cons_self g gs
        · exact List.mem_cons_of_mem g (ih _ f h)

/-- The lowercase trim of the peanut butter token is itself. -/
theorem lowerTrim_peanutButter :
    jsTrim (lowerStr (str "peanut butter")) = str "peanut butter" := by decide

/-- The lowercase trim of the sunflower lecithin token is itself. -/
theorem lowerTrim_sunflowerLecithin :
    jsTrim (lowerStr (str "sunflower lecithin")) = str "sunflower lecithin" := by decide

/-- Peanut butter is a registered false positive for Milk. -/
theorem fp_peanutButter_Milk :
    isFalsePositive (str "peanut butter") (str "Milk") = true := by decide

/-- Sunflower lecithin is a registered false positive for Soy. -/
theorem fp_sunflowerLecithin_Soy :
    isFalsePositive (str "sunflower lecithin") (str "Soy") = true := by decide

/-- The direct-name substring test between peanut butter and milk fails. -/
theorem includes_peanutButter_milk :
    (includes (str "peanut butter") (lowerStr (str "Milk")) ||
      includes (lowerStr (str "Milk")) (str "peanut butter")) = false := by decide

/-- The direct-name substring test between sunflower lecithin and soy fails. -/
theorem includes_sunflowerLecithin_soy :
    (includes (str "sunflower lecithin") (lowerStr (str "Soy")) ||
      includes (lowerStr (str "Soy")) (str "sunflower lecithin")) = false := by decide

/-- The ingredient loop of the allergen matcher preserves false-positive
safety: the synonym branches are guarded by the exclusion table and the
direct-name branch cannot match either excluded token. -/
theorem allergenIngredientStep_fpSafe (userSet allAllergies : List Str) (rawText : Str)
    (acc : List Finding) (ing : Str) (hacc : ∀ f ∈ acc, fpSafe f) :
    ∀ f ∈ allergenIngredientStep userSet allAllergies rawText acc ing, fpSafe f := by
  intro f hf
  simp only [allergenIngredientStep] at hf
  split at hf
  · -- exact-synonym branch pushed
    rename_i canonical heq
    rcases List.mem_append.mp hf with hmem | hnew
    · exact hacc f hmem
    · rw [List.mem_singleton] at hnew
      subst hnew
      simp only [fpSafe]
      constructor
      · intro hmt hcan
        subst hmt
        subst hcan
        rw [lowerTrim_peanutButter] at heq
        split at heq
        · rename_i c heq2
          split at heq
          · rename_i hcond
            have hc : c = str "Milk" := Option.some.inj heq
            subst hc
            simp only [Bool.and_eq_true, Bool.not_eq_true'] at hcond
            rw [fp_peanutButter_Milk] at hcond
            exact Bool.noConfusion hcond.2
          · exact Option.noConfusion heq
        · exact Option.noConfusion heq
      · intro hmt hcan
        subst hmt
        subst hcan
        rw [lowerTrim_sunflowerLecithin] at heq
        split at heq
        · rename_i c heq2
          split at heq
          · rename_i hcond
            have hc : c = str "Soy" := Option.some.inj heq
            subst hc
            simp only [Bool.and_eq_true, Bool.not_eq_true'] at hcond
            rw [fp_sunflowerLecithin_Soy] at hcond
            exact Bool.noConfusion hcond.2
          · exact Option.noConfusion heq
        · exact Option.noConfusion heq
  · -- substring branch and direct-name loop
    rename_i heq
    refine foldl_preserves fpSafe _ ?_ allAllergies _ ?_ f hf
    · intro acc2 allergen hacc2 g hg
      simp only at hg
      split at hg
      · rename_i hcond
        split at hg
        · exact hacc2 g hg
        · rcases List.mem_append.mp hg with hmem | hnew
          · exact hacc2 g hmem
          · rw [List.mem_singleton] at hnew
            subst hnew
            simp only [fpSafe]
            constructor
            · intro hmt hcan
              subst hmt
              subst hcan
              rw [lowerTrim_peanutButter] at hcond
              exact absurd hcond (by rw [includes_peanutButter_milk]; decide)
            · intro hmt hcan
              subst hmt
              subst hcan
              rw [lowerTrim_sunflowerLecithin] at hcond
              exact absurd hcond (by rw [includes_sunflowerLecithin_soy]; decide)
      · exact hacc2 g hg
    · intro g hg
      split at hg
      · rename_i te heq2
        rcases List.mem_append.mp hg with hmem | hnew
        · exact hacc g hmem
        · rw [List.mem_singleton] at hnew
          subst hnew
          simp only [fpSafe]
          have hpred := List.find?_some heq2
          constructor
          · intro hmt hcan
            subst hmt
            rw [lowerTrim_peanutButter] at hpred
            simp only [Bool.and_eq_true, Bool.not_eq_true'] at hpred
            obtain ⟨⟨⟨_, _⟩, hfp⟩, _⟩ := hpred
            rw [hcan, fp_peanutButter_Milk] at hfp
            exact Bool.noConfusion hfp
          · intro hmt hcan
            subst hmt
            rw [lowerTrim_sunflowerLecithin] at hpred
            simp only [Bool.and_eq_true, Bool.not_eq_true'] at hpred
            obtain ⟨⟨⟨_, _⟩, hfp⟩, _⟩ := hpred
            rw [hcan, fp_sunflowerLecithin_Soy] at hfp
            exact Bool.noConfusion hfp
      · exact hacc g hg

/-- The contains-statement loop preserves false-positive safety. -/
theorem allergenContainsStep_fpSafe (allAllergies : List Str) (rawText : Str)
    (acc : List Finding) (statement : Str) (hacc : ∀ f ∈ acc, fpSafe f) :
    ∀ f ∈ allergenContainsStep allAllergies rawText acc statement, fpSafe f := by
  intro f hf
  simp only [allergenContainsStep] at hf
  refine foldl_preserves fpSafe _ ?_ allAllergies acc hacc f hf
  intro acc2 allergen hacc2 g hg
  simp only at hg
  split at hg
  · rename_i hcond
    split at hg
    · exact hacc2 g hg
    · rcases List.mem_append.mp hg with hmem | hnew
      · exact hacc2 g hmem
      · rw [List.mem_singleton] at hnew
        subst hnew
        simp only [fpSafe]
        constructor
        · intro hmt hcan
          subst hmt
          subst hcan
          exact absurd hcond (by rw [includes_peanutButter_milk]; decide)
        · intro hmt hcan
          subst hmt
          subst hcan
          exact absurd hcond (by rw [includes_sunflowerLecithin_soy]; decide)
  · exact hacc2 g hg

/-- The may-contain loop preserves false-positive safety. -/
theorem allergenMayContainStep_fpSafe (allAllergies : List Str) (rawText : Str)
    (treat : Bool) (acc : List Finding) (statement : Str) (hacc : ∀ f ∈ acc, fpSafe f) :
    ∀ f ∈ allergenMayContainStep allAllergies rawText treat acc statement, fpSafe f := by
  intro f hf
  simp only [allergenMayContainStep] at hf
  refine foldl_preserves fpSafe _ ?_ allAllergies acc hacc f hf
  intro acc2 allergen hacc2 g hg
  simp only at hg
  split at hg
  · rename_i hcond
    split at hg
    · exact hacc2 g hg
    · rcases List.mem_append.mp hg with hmem | hnew
      · exact hacc2 g hmem
      · rw [List.mem_singleton] at hnew
        subst hnew
        simp only [fpSafe]
        constructor
        · intro hmt hcan
          subst hmt
          subst hcan
          exact absurd hcond (by rw [includes_peanutButter_milk]; decide)
        · intro hmt hcan
          subst hmt
          subst hcan
          exact absurd hcond (by rw [includes_sunflowerLecithin_soy]; decide)
  · exact hacc2 g hg

/-- Every allergen-matcher finding is false-positive safe. -/
theorem checkAllergens_fpSafe (label : ParsedLabel) (profile : UserProfile) (rawText : Str) :
    ∀ f ∈ checkAllergens label profile rawText, fpSafe f := by
  intro f hf
  unfold checkAllergens at hf
  by_cases h : profile.allergies ++ profile.customAllergies = []
  · simp [h] at hf
  · simp only [h, if_false, deduplicateFindings] at hf
    have hf2 := dedupGo_subset _ _ f hf
    refine foldl_preserves fpSafe _
      (fun acc x hacc => allergenMayContainStep_fpSafe _ _ _ acc x hacc) _ _
      (foldl_preserves fpSafe _
        (fun acc x hacc => allergenContainsStep_fpSafe _ _ acc x hacc) _ _
        (foldl_preserves fpSafe _
          (fun acc x hacc => allergenIngredientStep_fpSafe _ _ _ acc x hacc) _ _
          (fun g hg => absurd hg (List.not_mem_nil g))) ) f hf2

/-- Every dietary-matcher ingredient-step finding has kind DIETARY. -/
theorem dietaryIngredientStep_kind (rawText : Str) (rule : DietaryRule)
    (acc : List Finding) (ing : Str)
    (hacc : ∀ f ∈ acc, f.kind = FindingKind.DIETARY) :
    ∀ f ∈ dietaryIngredientStep rawText rule acc ing, f.kind = FindingKind.DIETARY := by
  intro f hf
  simp only [dietaryIngredientStep] at hf
  repeat' split at hf
  all_goals
    first
    | exact hacc f hf
    | (rcases List.mem_append.mp hf with h1 | h2
       · first
         | exact hacc f h1
         | (rcases List.mem_append.mp h1 with h3 | h4
            · exact hacc f h3
            · rw [List.mem_singleton] at h4; subst h4; rfl)
       · rw [List.mem_singleton] at h2; subst h2; rfl)

/-- Every dietary-matcher finding has kind DIETARY. -/
theorem checkDietaryPreferences_kind (label : ParsedLabel) (profile : UserProfile)
    (rawText : Str) :
    ∀ f ∈ checkDietaryPreferences label profile rawText, f.kind = FindingKind.DIETARY := by
  intro f hf
  unfold checkDietaryPreferences at hf
  by_cases h : profile.preferences ++ profile.customPreferences = []
  · simp [h] at hf
  · simp only [h, if_false, deduplicateFindings] at hf
    have hf2 := dedupGo_subset _ _ f hf
    refine foldl_preserves (fun f => f.kind = FindingKind.DIETARY) _ ?_ _ _
      (fun g hg => absurd hg (List.not_mem_nil g)) f hf2
    intro acc pk hacc g hg
    unfold dietaryPrefStep at hg
    split at hg
    · exact hacc g hg
    · rename_i e heq
      exact foldl_preserves (fun f => f.kind = FindingKind.DIETARY) _
        (fun acc2 x hacc2 => dietaryIngredientStep_kind rawText e.2 acc2 x hacc2)
        _ _ hacc g hg

/-- Every forbidden-keyword-step finding has kind FORBIDDEN_KEYWORD. -/
theorem keywordStep_kind (label : ParsedLabel) (rawText : Str)
    (acc : List Finding) (keyword : Str)
    (hacc : ∀ f ∈ acc, f.kind = FindingKind.FORBIDDEN_KEYWORD) :
    ∀ f ∈ keywordStep label rawText acc keyword, f.kind = FindingKind.FORBIDDEN_KEYWORD := by
  intro f hf
  simp only [keywordStep] at hf
  repeat' split at hf
  all_goals
    first
    | exact hacc f hf
    | (rcases List.mem_append.mp hf with h1 | h2
       · first
         | exact hacc f h1
         | (rcases List.mem_append.mp h1 with h3 | h4
            · exact hacc f h3
            · rw [List.mem_singleton] at h4; subst h4; rfl)
       · rw [List.mem_singleton] at h2; subst h2; rfl)

/-- Every forbidden-keyword finding has kind FORBIDDEN_KEYWORD. -/
theorem checkForbiddenKeywords_kind (label : ParsedLabel) (profile : UserProfile)
    (rawText : Str) :
    ∀ f ∈ checkForbiddenKeywords label profile rawText,
      f.kind = FindingKind.FORBIDDEN_KEYWORD := by
  intro f hf
  unfold checkForbiddenKeywords at hf
  by_cases h : profile.forbiddenKeywords = []
  · simp [h] at hf
  · simp only [h, if_false, deduplicateFindings] at hf
    have hf2 := dedupGo_subset _ _ f hf
    exact foldl_preserves (fun f => f.kind = FindingKind.FORBIDDEN_KEYWORD) _
      (fun acc x hacc => keywordStep_kind label rawText acc x hacc) _ _
      (fun g hg => absurd hg (List.not_mem_nil g)) f hf2

/-- C4: for a profile allergic to Milk, no allergen finding ties the token
peanut butter to canonical term Milk; and for a profile allergic to Soy, no
allergen finding ties sunflower lecithin to canonical term Soy. -/
theorem evaluateLabel_false_positive_exclusions (label : ParsedLabel)
    (profile : UserProfile)
    (_hMilk : str "Milk" ∈ profile.allergies)
    (_hTok : str "peanut butter" ∈ label.ingredients)
    (_hNoMilk : ∀ s ∈ label.containsStatements ++ label.mayContainStatements,
      includes s (str "milk") = false) :
    (∀ f ∈ (evaluateLabel label profile).findings,
      f.kind = FindingKind.ALLERGEN → f.matchedText = str "peanut butter" →
        f.canonicalTerm ≠ str "Milk") ∧
    (str "Soy" ∈ profile.allergies → str "sunflower lecithin" ∈ label.ingredients →
      ∀ f ∈ (evaluateLabel label profile).findings,
        f.kind = FindingKind.ALLERGEN → f.matchedText = str "sunflower lecithin" →
          f.canonicalTerm ≠ str "Soy") := by
  have hfind : (evaluateLabel label profile).findings =
      checkAllergens label profile label.normalizedText ++
      checkDietaryPreferences label profile label.normalizedText ++
      checkForbiddenKeywords label profile label.normalizedText := rfl
  have key : ∀ f ∈ (evaluateLabel label profile).findings,
      f.kind = FindingKind.ALLERGEN → fpSafe f := by
    intro f hf hkind
    rw [hfind] at hf
    rcases List.mem_append.mp hf with hf1 | hfK
    · rcases List.mem_append.mp hf1 with hfA | hfD
      · exact checkAllergens_fpSafe label profile _ f hfA
      · have hk := checkDietaryPreferences_kind label profile _ f hfD
        rw [hkind] at hk
        exact FindingKind.noConfusion hk
    · have hk := checkForbiddenKeywords_kind label profile _ f hfK
      rw [hkind] at hk
      exact FindingKind.noConfusion hk
  constructor
  · intro f hf hkind hmt
    exact (key f hf hkind).1 hmt
  · intro _ _ f hf hkind hmt
    exact (key f hf hkind).2 hmt

/-- C4 witness: the exclusions applied at a concrete label holding both
tokens, for a profile allergic to Milk and Soy. -/
theorem evaluateLabel_false_positive_exclusions_witness :
    (str "Milk" ∈ c4Profile.allergies) ∧
    (str "peanut butter" ∈ c4Label.ingredients) ∧
    (∀ f ∈ (evaluateLabel c4Label c4Profile).findings,
      f.kind = FindingKind.ALLERGEN → f.matchedText = str "peanut butter" →
        f.canonicalTerm ≠ str "Milk") := by
  refine ⟨by decide, by decide, ?_⟩
  exact (evaluateLabel_false_positive_exclusions c4Label c4Profile (by decide) (by decide)
    (by decide)).1

end Appergy
